import Mathlib

/-!
Verification development for the gopushpixels library core.

Each Go source artifact named in the claims is shallowly embedded below:

* bytes on the wire are modelled as natural numbers, with `< 256`
  side-conditions where a claim's truth depends on them;
* machine integers are modelled by their unsigned bit patterns (`Nat`)
  with explicit `% 2 ^ w` where overflow matters;
* `io.Reader`-style streams are modelled by the list of bytes remaining;
  the zero-copy slice reader (`support/byteslicereader`) is additionally
  modelled with its explicit position field, matching its Go struct;
* fallible operations return `Except`/`Option`; a Go runtime panic
  (out-of-range slice index) is modelled as `Option.none`.
-/

namespace GoPushPixels

/-! ## Little-endian and big-endian byte codecs

These model `encoding/binary` and the `struc` field packing used by the
repository: all multi-byte discovery/command fields are little-endian,
packet IDs are big-endian `u32`.
-/

/-- Encode `v` as `w` little-endian bytes (each byte reduced `% 256`). -/
def encLE : Nat → Nat → List Nat
  | 0, _ => []
  | w + 1, v => v % 256 :: encLE w (v / 256)

/-- Decode a little-endian byte list into a natural number. -/
def decLE (bs : List Nat) : Nat :=
  bs.foldr (fun b acc => b + 256 * acc) 0

/-- Encode `v % 2^32` as 4 big-endian bytes (as `binary.BigEndian.PutUint32`). -/
def uint32BE (v : Nat) : List Nat :=
  [v / 16777216 % 256, v / 65536 % 256, v / 256 % 256, v % 256]

theorem encLE_length (w v : Nat) : (encLE w v).length = w := by
  induction w generalizing v with
  | zero => rfl
  | succ w ih => simp [encLE, ih]

theorem uint32BE_length (v : Nat) : (uint32BE v).length = 4 := rfl

/-- Encoding the decoding of a byte list of width `w` gives it back,
provided every byte is in range. -/
theorem encLE_decLE (bs : List Nat) (h : ∀ x ∈ bs, x < 256) :
    encLE bs.length (decLE bs) = bs := by
  induction bs with
  | nil => rfl
  | cons b rest ih =>
    have hb : b < 256 := h b (List.mem_cons_self _ _)
    have hrest : ∀ x ∈ rest, x < 256 := fun x hx => h x (List.mem_cons_of_mem _ hx)
    simp only [List.length_cons, encLE, decLE, List.foldr_cons]
    have hmod : (b + 256 * rest.foldr (fun b acc => b + 256 * acc) 0) % 256 = b := by
      omega
    have hdiv : (b + 256 * rest.foldr (fun b acc => b + 256 * acc) 0) / 256
        = rest.foldr (fun b acc => b + 256 * acc) 0 := by omega
    rw [hmod, hdiv]
    have := ih hrest
    simp only [decLE] at this
    rw [this]

/-- Decoding the encoding of a value below `2^(8w)` gives it back. -/
theorem decLE_encLE (w v : Nat) (h : v < 2 ^ (8 * w)) : decLE (encLE w v) = v := by
  induction w generalizing v with
  | zero =>
    simp only [Nat.mul_zero, pow_zero, Nat.lt_one_iff] at h
    simp [encLE, decLE, h]
  | succ w ih =>
    have hdiv : v / 256 < 2 ^ (8 * w) := by
      have h256 : (256 : Nat) = 2 ^ 8 := by norm_num
      have : v < 2 ^ (8 * w) * 256 := by
        rw [h256, ← pow_add]
        have : 8 * w + 8 = 8 * (w + 1) := by ring
        rw [this]
        exact h
      omega
    simp only [encLE, decLE, List.foldr_cons]
    have := ih (v / 256) hdiv
    simp only [decLE] at this
    rw [this]
    omega

/-! ## Pixel model (`pixel/pixel.go`, `pixel/buffer.go`)

`P` is the five-component pixel; `Buffer` is the wire-format pixel
buffer. Byte values are `Nat` (Go `byte` values are always `< 256`, but
the get/set round trip does not depend on it).
-/

/-- The 256-entry luminance linearization table `pixelLinearExp`. -/
def pixelLinearExpTable : List Nat :=
  [0, 0, 0, 0, 0, 0, 0, 0, 0, 0, 0, 0, 0, 0, 0, 0, 0, 0, 0, 1, 1, 1, 1, 1, 1, 1, 1, 1, 1, 1, 1, 1, 1, 1,
   1, 1, 1, 1, 1, 1, 1, 1, 1, 2, 2, 2, 2, 2, 2, 2, 2, 2, 2, 2, 2, 2, 2, 2, 3, 3, 3, 3, 3, 3, 3, 3, 3, 3, 3, 3, 4, 4, 4, 4, 4, 4, 4, 4, 4,
   5, 5, 5, 5, 5, 5, 5, 5, 6, 6, 6, 6, 6, 6, 7, 7, 7, 7, 7, 7, 8, 8, 8, 8, 8, 9, 9, 9, 9, 9, 10, 10, 10, 10, 11, 11, 11, 11, 12, 12, 12,
   13, 13, 13, 14, 14, 14, 14, 15, 15, 16, 16, 16, 17, 17, 17, 18, 18, 19, 19, 20, 20, 20, 21, 21, 22, 22, 23, 23, 24, 25, 25, 26, 26, 27,
   27, 28, 29, 29, 30, 31, 31, 32, 33, 34, 34, 35, 36, 37, 38, 38, 39, 40, 41, 42, 43, 44, 45, 46, 47, 48, 49, 50, 51, 52, 54, 55, 56, 57,
   59, 60, 61, 63, 64, 65, 67, 68, 70, 72, 73, 75, 76, 78, 80, 82, 83, 85, 87, 89, 91, 93, 95, 97, 99, 102, 104, 106, 109, 111, 114, 116,
   119, 121, 124, 127, 129, 132, 135, 138, 141, 144, 148, 151, 154, 158,
   161, 165, 168, 172, 176, 180, 184, 188, 192, 196, 201, 205,
   209, 214, 219, 224, 229, 234, 239, 244, 249, 255]

/-- Table lookup `pixelLinearExp[b]`. -/
def pixelLinearExp (b : Nat) : Nat := pixelLinearExpTable.getD b 0

/-- The state of a single pixel (`pixel.P`). -/
structure P where
  red : Nat := 0
  green : Nat := 0
  blue : Nat := 0
  orange : Nat := 0
  white : Nat := 0
  deriving Repr, DecidableEq

/-- Pixel buffer layout (`pixel.BufferLayout`). -/
inductive BufferLayout where
  | rgb
  | rgbow
  deriving Repr, DecidableEq

/-- Wire size per pixel: 3 for RGB, 9 for RGBOW (`Buffer.pixelSize`). -/
def BufferLayout.pixelSize : BufferLayout → Nat
  | .rgb => 3
  | .rgbow => 9

/-- Wire-format pixel buffer (`pixel.Buffer`). -/
structure Buffer where
  layout : BufferLayout
  buf : List Nat
  deriving Repr, DecidableEq

/-- Number of pixels: `len(buf) / pixelSize` with integer division. -/
def Buffer.len (pb : Buffer) : Nat := pb.buf.length / pb.layout.pixelSize

/-- `Buffer.Pixel(i)`: read pixel `i`. The source guards only on the
byte offset `i * pixelSize` being inside the byte slice; the component
reads at `offset+1 .. offset+8` are unguarded, so a read past the end
of the slice is a Go runtime panic, modelled as `none`. -/
def Buffer.pixel (pb : Buffer) (i : Int) : Option P :=
  let ps : Int := pb.layout.pixelSize
  let offset := i * ps
  if offset < 0 ∨ (pb.buf.length : Int) ≤ offset then
    some {}
  else
    let o := offset.toNat
    match pb.buf[o]?, pb.buf[o + 1]?, pb.buf[o + 2]? with
    | some r, some g, some b =>
      match pb.layout with
      | .rgb => some { red := r, green := g, blue := b }
      | .rgbow =>
        match pb.buf[o + 3]?, pb.buf[o + 6]? with
        | some orange, some white =>
          some { red := r, green := g, blue := b, orange := orange, white := white }
        | _, _ => none
    | _, _, _ => none

/-- `Buffer.SetPixel(i, p)`: write pixel `i`. Same guard as `pixel`;
writes past the end of the byte slice are a Go runtime panic (`none`).
For RGBOW the orange and white bytes are each written three times. -/
def Buffer.setPixel (pb : Buffer) (i : Int) (p : P) : Option Buffer :=
  let ps : Int := pb.layout.pixelSize
  let offset := i * ps
  if offset < 0 ∨ (pb.buf.length : Int) ≤ offset then
    some pb
  else
    let o := offset.toNat
    match pb.layout with
    | .rgb =>
      if o + 2 < pb.buf.length then
        some { pb with
          buf := ((pb.buf.set o p.red).set (o + 1) p.green).set (o + 2) p.blue }
      else none
    | .rgbow =>
      if o + 8 < pb.buf.length then
        some { pb with
          buf := ((((((((pb.buf.set o p.red).set (o + 1) p.green).set (o + 2) p.blue).set
            (o + 3) p.orange).set (o + 4) p.orange).set (o + 5) p.orange).set
            (o + 6) p.white).set (o + 7) p.white).set (o + 8) p.white }
      else none

/-- The loop body of `Buffer.AntiLog`, translated with its index-skipping
branches intact: `i` is the byte index, `pixelIndex` the per-pixel
counter. Note the Go source increments `pixelIndex` only inside the
`pixelIndex > 3` branch. -/
def antiLogLoop (layout : BufferLayout) (buf : List Nat) (i pixelIndex : Nat) : List Nat :=
  if _h : i < buf.length then
    let buf2 := buf.set i (pixelLinearExp (buf.getD i 0))
    match layout with
    | .rgb =>
      antiLogLoop layout buf2 (i + 1) (if pixelIndex > 2 then 0 else pixelIndex)
    | .rgbow =>
      let step := if pixelIndex > 3 then (i + 2, pixelIndex + 1) else (i, pixelIndex)
      let pixelIndex2 := if step.2 > 4 then 0 else step.2
      antiLogLoop layout buf2 (step.1 + 1) pixelIndex2
  else buf
  termination_by buf.length - i
  decreasing_by
  · simp only [List.length_set]
    omega
  · simp only [List.length_set]
    split <;> omega

/-- `Buffer.AntiLog()`. -/
def Buffer.antiLog (pb : Buffer) : Buffer :=
  { pb with buf := antiLogLoop pb.layout pb.buf 0 0 }

/-! ### Pixel buffer proofs -/

/-- With `pixelIndex = 0`, the skip branches of the `AntiLog` loop are
never taken (for either layout, the branch guards compare `0 > 2`,
`0 > 3`, `0 > 4`), so the loop maps the table over every remaining byte. -/
theorem antiLogLoop_eq_map_aux (layout : BufferLayout) :
    ∀ (m : Nat) (buf : List Nat) (i : Nat), buf.length - i = m →
      antiLogLoop layout buf i 0 =
        buf.take i ++ (buf.drop i).map pixelLinearExp := by
  intro m
  induction m with
  | zero =>
    intro buf i hm
    have hle : buf.length ≤ i := by omega
    rw [antiLogLoop]
    simp [Nat.not_lt_of_le hle, List.take_of_length_le hle, List.drop_eq_nil_of_le hle]
  | succ n ih =>
    intro buf i hm
    have hlt : i < buf.length := by omega
    rw [antiLogLoop]
    have hset : (buf.set i (pixelLinearExp (buf.getD i 0))).length - (i + 1) = n := by
      simp only [List.length_set]
      omega
    have hrec : antiLogLoop layout (buf.set i (pixelLinearExp (buf.getD i 0))) (i + 1) 0 =
        (buf.set i (pixelLinearExp (buf.getD i 0))).take (i + 1) ++
          ((buf.set i (pixelLinearExp (buf.getD i 0))).drop (i + 1)).map pixelLinearExp :=
      ih _ _ hset
    have hgd : buf.getD i 0 = buf[i] := List.getD_eq_getElem buf 0 hlt
    have hbody : (buf.set i (pixelLinearExp (buf.getD i 0))).take (i + 1) ++
        ((buf.set i (pixelLinearExp (buf.getD i 0))).drop (i + 1)).map pixelLinearExp =
        buf.take i ++ (buf.drop i).map pixelLinearExp := by
      rw [List.set_eq_take_cons_drop _ hlt]
      have hlen : (buf.take i).length = i := by
        simp [List.length_take]
        omega
      have htk : (buf.take i ++ pixelLinearExp (buf.getD i 0) :: buf.drop (i + 1)).take (i + 1) =
          buf.take i ++ [pixelLinearExp (buf.getD i 0)] := by
        rw [show i + 1 = (buf.take i).length + 1 by omega]
        rw [List.take_append]
        rfl
      have hdr : (buf.take i ++ pixelLinearExp (buf.getD i 0) :: buf.drop (i + 1)).drop (i + 1) =
          buf.drop (i + 1) := by
        rw [show i + 1 = (buf.take i).length + 1 by omega]
        rw [List.drop_append]
        rfl
      rw [htk, hdr, List.drop_eq_getElem_cons hlt, List.map_cons, hgd]
      simp
    simp only [dif_pos hlt]
    cases layout with
    | rgb =>
      simpa using hrec.trans hbody
    | rgbow =>
      simpa using hrec.trans hbody

/-- The `AntiLog` loop started at the beginning of the buffer maps the
table over every byte. -/
theorem antiLogLoop_eq_map (layout : BufferLayout) (buf : List Nat) (i : Nat) :
    antiLogLoop layout buf i 0 =
      buf.take i ++ (buf.drop i).map pixelLinearExp :=
  antiLogLoop_eq_map_aux layout (buf.length - i) buf i rfl

/-- Claim C5 — `antilog()` equals the naive per-byte table map:
for every buffer of either layout, the implementation with its
index-skipping branches equals applying the 256-entry luminance table
to each byte of the byte stream, regardless of layout. -/
theorem claim_C5_antilog_eq_table_map (pb : Buffer) :
    pb.antiLog = { pb with buf := pb.buf.map pixelLinearExp } := by
  unfold Buffer.antiLog
  rw [antiLogLoop_eq_map]
  simp

/-- Helper: writing three consecutive bytes at `o`. -/
theorem set3_eq (a b c : Nat) : ∀ (o : Nat) (l : List Nat), o + 2 < l.length →
    ((l.set o a).set (o + 1) b).set (o + 2) c =
      l.take o ++ a :: b :: c :: l.drop (o + 3) := by
  intro o
  induction o with
  | zero =>
    intro l h
    match l with
    | x :: y :: z :: rest => simp [List.set]
  | succ o ih =>
    intro l h
    match l with
    | x :: rest =>
      simp only [List.length_cons] at h
      simp only [List.set, List.take, List.drop]
      rw [ih rest (by omega)]
      rfl

/-- Helper: writing nine consecutive bytes at `o`. -/
theorem set9_eq (a b c d e f g h' i' : Nat) : ∀ (o : Nat) (l : List Nat), o + 8 < l.length →
    ((((((((l.set o a).set (o + 1) b).set (o + 2) c).set (o + 3) d).set (o + 4) e).set
        (o + 5) f).set (o + 6) g).set (o + 7) h').set (o + 8) i' =
      l.take o ++ a :: b :: c :: d :: e :: f :: g :: h' :: i' :: l.drop (o + 9) := by
  intro o
  induction o with
  | zero =>
    intro l h
    match l with
    | x0 :: x1 :: x2 :: x3 :: x4 :: x5 :: x6 :: x7 :: x8 :: rest => simp [List.set]
  | succ o ih =>
    intro l h
    match l with
    | x :: rest =>
      simp only [List.length_cons] at h
      simp only [List.set, List.take, List.drop]
      rw [ih rest (by omega)]
      rfl

/-- Claim C6, amended — out-of-bounds pixel access is harmless *when the
buffer's byte length is a multiple of the layout's pixel size* (true for
every buffer built by `Reset`/`ReadFrom`/`SetPixels`, but not enforced
by `UseBytes`): for every index `i < 0` or `i ≥ len()`, `pixel(i)`
returns the zero pixel and `set_pixel(i, p)` returns the buffer
unchanged. -/
theorem claim_C6_oob_access_harmless (pb : Buffer) (i : Int) (p : P)
    (hdvd : pb.layout.pixelSize ∣ pb.buf.length)
    (hoob : i < 0 ∨ (pb.len : Int) ≤ i) :
    pb.pixel i = some {} ∧ pb.setPixel i p = some pb := by
  have hps : 0 < pb.layout.pixelSize := by
    cases pb.layout <;> simp [BufferLayout.pixelSize]
  have hguard : (i * (pb.layout.pixelSize : Int) < 0 ∨
      (pb.buf.length : Int) ≤ i * (pb.layout.pixelSize : Int)) := by
    rcases hoob with hneg | hge
    · left
      have : (0 : Int) < (pb.layout.pixelSize : Int) := by exact_mod_cast hps
      exact mul_neg_of_neg_of_pos hneg this
    · right
      obtain ⟨k, hk⟩ := hdvd
      have hlenk : pb.len = k := by
        simp [Buffer.len, hk, Nat.mul_div_cancel_left _ hps]
      rw [hlenk] at hge
      have hcast : (pb.buf.length : Int) = (pb.layout.pixelSize : Int) * (k : Int) := by
        exact_mod_cast congrArg (Nat.cast : Nat → Int) hk
      rw [hcast]
      have hpsnn : (0 : Int) ≤ (pb.layout.pixelSize : Int) := by positivity
      calc (pb.layout.pixelSize : Int) * (k : Int)
          = (k : Int) * (pb.layout.pixelSize : Int) := by ring
        _ ≤ i * (pb.layout.pixelSize : Int) := mul_le_mul_of_nonneg_right hge hpsnn
  constructor
  · simp only [Buffer.pixel]
    rw [if_pos hguard]
  · simp only [Buffer.setPixel]
    rw [if_pos hguard]

/-- Witness for claim C6: a two-pixel RGB buffer, index 2 out of range. -/
theorem claim_C6_oob_access_harmless_witness :
    Buffer.pixel { layout := .rgb, buf := [1, 2, 3, 4, 5, 6] } 2 = some {} ∧
    Buffer.setPixel { layout := .rgb, buf := [1, 2, 3, 4, 5, 6] } 2 { red := 7 } =
      some { layout := .rgb, buf := [1, 2, 3, 4, 5, 6] } :=
  claim_C6_oob_access_harmless { layout := .rgb, buf := [1, 2, 3, 4, 5, 6] } 2 { red := 7 }
    (by decide) (Or.inr (by decide))

/-- Counterexample to claim C6 as stated: a 4-byte RGB buffer adopted via
`use_bytes` has `len() = 1`, and for `i = 1 ≥ len()` the byte-offset
guard (`offset = 3 < 4`) does not fire, so `Pixel`/`SetPixel` read and
write past the end of the slice — a Go runtime panic (`none`), not a
zero pixel / no-op. -/
theorem claim_C6_counterexample :
    Buffer.len { layout := .rgb, buf := [0, 0, 0, 0] } = 1 ∧
    Buffer.pixel { layout := .rgb, buf := [0, 0, 0, 0] } 1 = none ∧
    Buffer.setPixel { layout := .rgb, buf := [0, 0, 0, 0] } 1 { red := 9 } = none := by
  decide

/-- Claim C7 — pixel layout bijection: writing pixel `i` then reading it
back returns the written red/green/blue components (RGB) or all five
components (RGBOW); moreover the RGBOW serialized form carries the
orange byte three times and the white byte three times. -/
theorem claim_C7_set_then_get (pb : Buffer) (i : Nat) (p : P)
    (hlen : i + 1 ≤ pb.len) :
    ∃ pb2, pb.setPixel i p = some pb2 ∧
      pb2.pixel i = some (match pb.layout with
        | .rgb => { red := p.red, green := p.green, blue := p.blue }
        | .rgbow => p) ∧
      (pb.layout = .rgbow →
        (pb2.buf[9 * i + 3]? = some p.orange ∧ pb2.buf[9 * i + 4]? = some p.orange ∧
          pb2.buf[9 * i + 5]? = some p.orange) ∧
        (pb2.buf[9 * i + 6]? = some p.white ∧ pb2.buf[9 * i + 7]? = some p.white ∧
          pb2.buf[9 * i + 8]? = some p.white)) := by
  obtain ⟨layout, buf⟩ := pb
  cases layout with
  | rgb =>
    simp only [Buffer.len, BufferLayout.pixelSize] at hlen
    have hlen' : 3 * i + 2 < buf.length := by omega
    have hofs : (i : Int) * ((BufferLayout.pixelSize .rgb : Nat) : Int) = ((3 * i : Nat) : Int) := by
      simp [BufferLayout.pixelSize]
      ring
    have hguard : ¬((i : Int) * ((BufferLayout.pixelSize .rgb : Nat) : Int) < 0 ∨
        ((buf.length : Nat) : Int) ≤ (i : Int) * ((BufferLayout.pixelSize .rgb : Nat) : Int)) := by
      rw [hofs]
      push_cast
      omega
    have hto : ((i : Int) * ((BufferLayout.pixelSize .rgb : Nat) : Int)).toNat = 3 * i := by
      rw [hofs, Int.toNat_natCast]
    have hA : (buf.take (3 * i)).length = 3 * i := by
      simp [List.length_take]
      omega
    have hlen2 : (buf.take (3 * i) ++ p.red :: p.green :: p.blue :: buf.drop (3 * i + 3)).length
        = buf.length := by
      simp [List.length_take, List.length_drop]
      omega
    refine ⟨⟨.rgb, buf.take (3 * i) ++ p.red :: p.green :: p.blue :: buf.drop (3 * i + 3)⟩,
      ?_, ?_, by simp⟩
    · simp only [Buffer.setPixel]
      rw [if_neg hguard]
      simp only [hto]
      rw [if_pos (by omega)]
      rw [set3_eq _ _ _ _ _ hlen']
    · have hguard2 : ¬((i : Int) * ((BufferLayout.pixelSize .rgb : Nat) : Int) < 0 ∨
          (((buf.take (3 * i) ++ p.red :: p.green :: p.blue :: buf.drop (3 * i + 3)).length : Nat) : Int)
            ≤ (i : Int) * ((BufferLayout.pixelSize .rgb : Nat) : Int)) := by
        rw [hlen2]
        exact hguard
      simp only [Buffer.pixel]
      rw [if_neg hguard2]
      simp only [hto]
      rw [List.getElem?_append_right (by simp only [List.length_take]; omega), List.getElem?_append_right (by simp only [List.length_take]; omega),
        List.getElem?_append_right (by simp only [List.length_take]; omega)]
      simp [hA]
  | rgbow =>
    simp only [Buffer.len, BufferLayout.pixelSize] at hlen
    have hlen' : 9 * i + 8 < buf.length := by omega
    have hofs : (i : Int) * ((BufferLayout.pixelSize .rgbow : Nat) : Int) = ((9 * i : Nat) : Int) := by
      simp [BufferLayout.pixelSize]
      ring
    have hguard : ¬((i : Int) * ((BufferLayout.pixelSize .rgbow : Nat) : Int) < 0 ∨
        ((buf.length : Nat) : Int) ≤ (i : Int) * ((BufferLayout.pixelSize .rgbow : Nat) : Int)) := by
      rw [hofs]
      push_cast
      omega
    have hto : ((i : Int) * ((BufferLayout.pixelSize .rgbow : Nat) : Int)).toNat = 9 * i := by
      rw [hofs, Int.toNat_natCast]
    have hset := set9_eq p.red p.green p.blue p.orange p.orange p.orange p.white p.white p.white
      (9 * i) buf hlen'
    have hA : (buf.take (9 * i)).length = 9 * i := by
      simp [List.length_take]
      omega
    have hlen2 : (buf.take (9 * i) ++ p.red :: p.green :: p.blue :: p.orange :: p.orange ::
        p.orange :: p.white :: p.white :: p.white :: buf.drop (9 * i + 9)).length
        = buf.length := by
      simp [List.length_take, List.length_drop]
      omega
    refine ⟨⟨.rgbow, buf.take (9 * i) ++ p.red :: p.green :: p.blue :: p.orange :: p.orange ::
        p.orange :: p.white :: p.white :: p.white :: buf.drop (9 * i + 9)⟩,
      ?_, ?_, ?_⟩
    · simp only [Buffer.setPixel]
      rw [if_neg hguard]
      simp only [hto]
      rw [if_pos (by omega)]
      rw [hset]
    · have hguard2 : ¬((i : Int) * ((BufferLayout.pixelSize .rgbow : Nat) : Int) < 0 ∨
          (((buf.take (9 * i) ++ p.red :: p.green :: p.blue :: p.orange :: p.orange ::
            p.orange :: p.white :: p.white :: p.white :: buf.drop (9 * i + 9)).length : Nat) : Int)
            ≤ (i : Int) * ((BufferLayout.pixelSize .rgbow : Nat) : Int)) := by
        rw [hlen2]
        exact hguard
      simp only [Buffer.pixel]
      rw [if_neg hguard2]
      simp only [hto]
      rw [List.getElem?_append_right (by simp only [List.length_take]; omega), List.getElem?_append_right (by simp only [List.length_take]; omega),
        List.getElem?_append_right (by simp only [List.length_take]; omega), List.getElem?_append_right (by simp only [List.length_take]; omega),
        List.getElem?_append_right (by simp only [List.length_take]; omega)]
      simp [hA]
    · intro _
      constructor
      · rw [List.getElem?_append_right (by simp only [List.length_take]; omega), List.getElem?_append_right (by simp only [List.length_take]; omega),
          List.getElem?_append_right (by simp only [List.length_take]; omega)]
        simp [hA]
      · rw [List.getElem?_append_right (by simp only [List.length_take]; omega), List.getElem?_append_right (by simp only [List.length_take]; omega),
          List.getElem?_append_right (by simp only [List.length_take]; omega)]
        simp [hA]

/-- Witness for claim C7: one RGBOW pixel. -/
theorem claim_C7_set_then_get_witness :
    ∃ pb2, Buffer.setPixel { layout := .rgbow, buf := List.replicate 9 0 } 0
        { red := 1, green := 2, blue := 3, orange := 4, white := 5 } = some pb2 ∧
      pb2.pixel 0 = some { red := 1, green := 2, blue := 3, orange := 4, white := 5 } ∧
      ((BufferLayout.rgbow = .rgbow) →
        (pb2.buf[9 * 0 + 3]? = some 4 ∧ pb2.buf[9 * 0 + 4]? = some 4 ∧
          pb2.buf[9 * 0 + 5]? = some 4) ∧
        (pb2.buf[9 * 0 + 6]? = some 5 ∧ pb2.buf[9 * 0 + 7]? = some 5 ∧
          pb2.buf[9 * 0 + 8]? = some 5)) :=
  claim_C7_set_then_get { layout := .rgbow, buf := List.replicate 9 0 } 0
    { red := 1, green := 2, blue := 3, orange := 4, white := 5 } (by decide)

/-! ## Byte-slice reader (`support/byteslicereader/byteslicereader.go`)

`R` is the position-based zero-copy reader. The `AlwaysCopy` flag only
affects aliasing of the returned slices, never their values, so it is
not modelled. -/

/-- Stream read errors: `io.EOF` and `io.ErrUnexpectedEOF`. -/
inductive ReadErr where
  | eof
  | unexpectedEof
  deriving Repr, DecidableEq

/-- The byte-slice reader `R`. -/
structure R where
  buffer : List Nat
  pos : Nat
  deriving Repr, DecidableEq

/-- `R.remainingSlice`: `nil` if `pos >= len(Buffer)`, else `Buffer[pos:]`. -/
def R.remainingSlice (r : R) : List Nat :=
  if r.buffer.length ≤ r.pos then [] else r.buffer.drop r.pos

/-- `R.Remaining()`. -/
def R.remaining (r : R) : Nat := r.remainingSlice.length

/-- `R.Next(n)`: returns up to `n` bytes and advances; `io.EOF` is set
whenever `n` is not strictly below the remaining count (the `n < len(v)`
branch), even when exactly `n` bytes remain and all are returned. -/
def R.next (r : R) (n : Nat) : (List Nat × Option ReadErr) × R :=
  let v := r.remainingSlice
  let res := if n < v.length then (v.take n, (none : Option ReadErr)) else (v, some .eof)
  (res, { r with pos := r.pos + res.1.length })

/-- `R.ReadByte()`: `none` models the `io.EOF` return. -/
def R.readByte (r : R) : Option (Nat × R) :=
  if r.buffer.length ≤ r.pos then none
  else some (r.buffer.getD r.pos 0, { r with pos := r.pos + 1 })

/-- `R.Peek(n)`: up to `n` bytes without advancing. -/
def R.peek (r : R) (n : Nat) : List Nat :=
  let v := r.remainingSlice
  if n < v.length then v.take n else v

/-- `pixel.Buffer.ReadFrom(r, size)` over the position-based reader:
calls `Next(size * pixelSize)` and converts the `io.EOF` that
accompanies a full-length result back into success. -/
def Buffer.readFrom (pb : Buffer) (r : R) (size : Nat) : Except ReadErr (Buffer × R) :=
  let pixelBufSize := size * pb.layout.pixelSize
  let res := r.next pixelBufSize
  let err := if res.1.2 = some .eof ∧ res.1.1.length = pixelBufSize then none else res.1.2
  match err with
  | some e => .error e
  | none => .ok ({ pb with buf := res.1.1 }, res.2)

/-- Claim C10 — `Next(n)` returns `io.EOF` exactly when `n ≥ remaining`,
including the boundary case `n = remaining` where all `n` requested
bytes are returned together with `io.EOF` (contrary to the function's
doc comment); `Buffer.ReadFrom` compensates by accepting `io.EOF` with a
full-length result, so it succeeds exactly when `size * pixelSize`
bytes remain or more. -/
theorem claim_C10_next_eof_semantics (r : R) (n : Nat) (pb : Buffer) (size : Nat) :
    (((r.next n).1.2 = some .eof) ↔ r.remaining ≤ n) ∧
    (r.remaining = n → (r.next n).1 = (r.remainingSlice, some .eof)) ∧
    ((pb.readFrom r size).isOk = true ↔ size * pb.layout.pixelSize ≤ r.remaining) := by
  refine ⟨?_, ?_, ?_⟩
  · simp only [R.next, R.remaining]
    split
    · simp only []
      constructor
      · intro h
        exact absurd h (by simp)
      · omega
    · simp only []
      constructor
      · intro _
        omega
      · intro _
        trivial
  · intro h
    simp only [R.next, R.remaining] at *
    rw [if_neg (by omega)]
  · simp only [Buffer.readFrom, R.next, R.remaining]
    by_cases hlt : size * pb.layout.pixelSize < r.remainingSlice.length
    · rw [if_pos hlt]
      simp only []
      rw [if_neg (by simp)]
      simp only [Except.isOk, Except.toBool]
      constructor
      · intro _
        simp only [R.remaining] at *
        omega
      · intro _
        trivial
    · rw [if_neg hlt]
      simp only []
      by_cases heq : r.remainingSlice.length = size * pb.layout.pixelSize
      · rw [if_pos (by simp [heq])]
        try simp only [Except.isOk, Except.toBool]
        constructor
        · intro _
          omega
        · intro _
          trivial
      · rw [if_neg (by simp [heq])]
        try simp only [Except.isOk, Except.toBool]
        constructor
        · intro h
          exact absurd h (by simp)
        · intro h
          simp only [R.remaining] at h
          omega

/-- Witness for claim C10: a reader over 6 bytes at position 2 with
exactly 4 remaining, asked for 4 bytes, and a 1-pixel RGB read from a
3-byte remainder. -/
theorem claim_C10_next_eof_semantics_witness :
    ((R.next ⟨[1, 2, 3, 4, 5, 6], 2⟩ 4).1.2 = some .eof) ∧
    ((R.next ⟨[1, 2, 3, 4, 5, 6], 2⟩ 4).1 = (R.remainingSlice ⟨[1, 2, 3, 4, 5, 6], 2⟩, some .eof)) ∧
    ((Buffer.readFrom ⟨.rgb, []⟩ ⟨[1, 2, 3, 4, 5], 2⟩ 1).isOk = true) := by
  refine ⟨?_, ?_, ?_⟩
  · exact (claim_C10_next_eof_semantics ⟨[1, 2, 3, 4, 5, 6], 2⟩ 4 ⟨.rgb, []⟩ 0).1.mpr (by decide)
  · exact (claim_C10_next_eof_semantics ⟨[1, 2, 3, 4, 5, 6], 2⟩ 4 ⟨.rgb, []⟩ 0).2.1 (by decide)
  · exact (claim_C10_next_eof_semantics ⟨[1, 2, 3, 4, 5], 2⟩ 0 ⟨.rgb, []⟩ 1).2.2.mpr (by decide)

/-! ## Command codec (`protocol/pixelpusher/doc.go` command section)

Commands are a closed tagged variant; strings are byte lists; the
reader is represented by its remaining bytes (a `ReadCommand` over a
stream consumes from the front and returns the rest). -/

/-- Parse/packet errors. -/
inductive PktErr where
  | truncated
  | stripOutOfRange
  | unknownCommand
  | badMagic
  deriving Repr, DecidableEq

/-- The 16-byte `CommandMagic`. -/
def commandMagic : List Nat :=
  [0x40, 0x09, 0x2d, 0xa6, 0x15, 0xa5, 0xdd, 0xe5,
   0x6a, 0x9d, 0x4d, 0x5a, 0xcf, 0x09, 0xaf, 0x50]

/-- The five PixelPusher commands. -/
inductive Command where
  | reset
  | globalBrightnessSet (parameter : Nat)
  | wifiConfigure (ssid key : List Nat) (security : Nat)
  | ledConfigure (numStrips stripLength stripType colourOrder group controller
      artNetUniverse artNetChannel : Nat)
  | stripBrightnessSet (stripNumber parameter : Nat)
  deriving Repr, DecidableEq

/-- The command byte (`Command.ID()`). -/
def Command.commandByte : Command → Nat
  | .reset => 1
  | .globalBrightnessSet _ => 2
  | .wifiConfigure .. => 3
  | .ledConfigure .. => 4
  | .stripBrightnessSet .. => 5

/-- `WriteContentTo`: the little-endian command body. WiFi strings are
written verbatim followed by a NUL; single bytes are reduced `% 256`
(`byte(...)` conversions). -/
def Command.writeContent : Command → List Nat
  | .reset => []
  | .globalBrightnessSet p => encLE 2 p
  | .wifiConfigure ssid key sec => ssid ++ [0] ++ key ++ [0] ++ [sec % 256]
  | .ledConfigure ns sl st co g c u ch =>
    encLE 4 ns ++ encLE 4 sl ++ encLE 8 st ++ encLE 8 co ++
      encLE 2 g ++ encLE 2 c ++ encLE 2 u ++ encLE 2 ch
  | .stripBrightnessSet s p => encLE 1 s ++ encLE 2 p

/-- `WriteCommand(cmd, w, writeMagic)`. -/
def writeCommand (cmd : Command) (writeMagic : Bool) : List Nat :=
  (if writeMagic then commandMagic else []) ++ cmd.commandByte :: cmd.writeContent

/-- `readNULLTerminatedString`: bytes up to (excluding) the first NUL. -/
def readNULString : List Nat → Except PktErr (List Nat × List Nat)
  | [] => .error .truncated
  | c :: rest =>
    if c = 0 then .ok ([], rest)
    else
      match readNULString rest with
      | .ok (s, r) => .ok (c :: s, r)
      | .error e => .error e

/-- The command-byte dispatch and body load of `ReadCommand` (the part
after the optional magic consumption). -/
def readCommandAfterMagic (b1 : List Nat) : Except PktErr (Command × List Nat) :=
  match b1 with
  | [] => .error .truncated
  | cmdByte :: b2 =>
    if cmdByte = 1 then .ok (.reset, b2)
    else if cmdByte = 2 then
      if 2 ≤ b2.length then .ok (.globalBrightnessSet (decLE (b2.take 2)), b2.drop 2)
      else .error .truncated
    else if cmdByte = 3 then
      match readNULString b2 with
      | .error e => .error e
      | .ok (ssid, b3) =>
        match readNULString b3 with
        | .error e => .error e
        | .ok (key, b4) =>
          match b4 with
          | [] => .error .truncated
          | sec :: b5 => .ok (.wifiConfigure ssid key sec, b5)
    else if cmdByte = 4 then
      if 32 ≤ b2.length then
        .ok (.ledConfigure (decLE (b2.take 4)) (decLE ((b2.drop 4).take 4))
          (decLE ((b2.drop 8).take 8)) (decLE ((b2.drop 16).take 8))
          (decLE ((b2.drop 24).take 2)) (decLE ((b2.drop 26).take 2))
          (decLE ((b2.drop 28).take 2)) (decLE ((b2.drop 30).take 2)), b2.drop 32)
      else .error .truncated
    else if cmdByte = 5 then
      if 3 ≤ b2.length then
        .ok (.stripBrightnessSet (decLE (b2.take 1)) (decLE ((b2.drop 1).take 2)), b2.drop 3)
      else .error .truncated
    else .error .unknownCommand

/-- `ReadCommand(r, consumeMagic)`: checks the magic when requested,
dispatches on the command byte, loads the body. Returns the command and
the unconsumed remainder of the stream. -/
def readCommand (b : List Nat) (consumeMagic : Bool) : Except PktErr (Command × List Nat) :=
  if consumeMagic then
    if 16 ≤ b.length then
      if b.take 16 = commandMagic then readCommandAfterMagic (b.drop 16)
      else .error .badMagic
    else .error .truncated
  else readCommandAfterMagic b

/-- A command such as Go can represent it, and (for WiFi) with NUL-free
strings. The NUL-freeness is the condition the round-trip needs. -/
def Command.wellFormed : Command → Bool
  | .reset => true
  | .globalBrightnessSet p => p < 2 ^ 16
  | .wifiConfigure ssid key sec =>
    ssid.all (fun c => c ≠ 0) && key.all (fun c => c ≠ 0) && sec < 2 ^ 8
  | .ledConfigure ns sl st co g c u ch =>
    ns < 2 ^ 32 && sl < 2 ^ 32 && st < 2 ^ 64 && co < 2 ^ 64 &&
      g < 2 ^ 16 && c < 2 ^ 16 && u < 2 ^ 16 && ch < 2 ^ 16
  | .stripBrightnessSet s p => s < 2 ^ 8 && p < 2 ^ 16

theorem readNULString_append (s rest : List Nat) (h : ∀ c ∈ s, c ≠ 0) :
    readNULString (s ++ 0 :: rest) = .ok (s, rest) := by
  induction s with
  | nil => simp [readNULString]
  | cons c s ih =>
    have hc : c ≠ 0 := h c (List.mem_cons_self _ _)
    have hs : ∀ x ∈ s, x ≠ 0 := fun x hx => h x (List.mem_cons_of_mem _ hx)
    simp only [List.cons_append, readNULString, if_neg hc]
    rw [show s.append (0 :: rest) = s ++ 0 :: rest from rfl, ih hs]

/-- Reading with the magic prefix present reduces to reading without it. -/
theorem readCommand_strip_magic (x : List Nat) :
    readCommand (commandMagic ++ x) true = readCommandAfterMagic x := by
  have hlen : 16 ≤ (commandMagic ++ x).length := by simp [commandMagic]
  have htake : (commandMagic ++ x).take 16 = commandMagic := List.take_left' (by rfl)
  have hdrop : (commandMagic ++ x).drop 16 = x := List.drop_left' (by rfl)
  simp only [readCommand, if_pos hlen, htake, hdrop, if_true, if_pos rfl]

/-- Claim C9, amended — command round-trip: for every enumerated command
whose fields fit their Go types and whose WiFi SSID/key contain no NUL
byte, decoding the encoding with the magic prefix yields the same
command with nothing left over, and re-encoding the decoded command
reproduces the original byte string exactly. (The NUL-freeness
condition is forced: a NUL byte inside the SSID terminates the string
early on decode.) -/
theorem claim_C9_command_roundtrip (cmd : Command) (h : cmd.wellFormed = true) :
    readCommand (writeCommand cmd true) true = .ok (cmd, []) ∧
    (∀ cmd2 rest, readCommand (writeCommand cmd true) true = .ok (cmd2, rest) →
      writeCommand cmd2 true = writeCommand cmd true) := by
  have main : readCommand (writeCommand cmd true) true = .ok (cmd, []) := by
    have hw : writeCommand cmd true = commandMagic ++ cmd.commandByte :: cmd.writeContent := by
      simp [writeCommand]
    rw [hw, readCommand_strip_magic]
    cases cmd with
    | reset => rfl
    | globalBrightnessSet p =>
      simp only [Command.wellFormed, decide_eq_true_eq] at h
      simp only [Command.commandByte, Command.writeContent, readCommandAfterMagic]
      norm_num
      rw [if_pos (by rw [encLE_length])]
      rw [List.take_of_length_le (by rw [encLE_length]), decLE_encLE 2 p (by exact_mod_cast h),
        List.drop_eq_nil_of_le (by rw [encLE_length])]
    | wifiConfigure ssid key sec =>
      simp only [Command.wellFormed, Bool.and_eq_true, List.all_eq_true,
        decide_eq_true_eq] at h
      obtain ⟨⟨hssid, hkey⟩, hsec⟩ := h
      have hbody : Command.writeContent (.wifiConfigure ssid key sec) =
          ssid ++ 0 :: (key ++ 0 :: [sec % 256]) := by
        simp [Command.writeContent]
      simp only [Command.commandByte, hbody, readCommandAfterMagic]
      norm_num
      simp only [readNULString_append ssid _ (fun c hc => hssid c hc),
        readNULString_append key _ (fun c hc => hkey c hc)]
      have hsec2 : sec < 256 := by
        norm_num at hsec
        exact hsec
      simp [Nat.mod_eq_of_lt hsec2]
    | ledConfigure ns sl st co g c u ch =>
      simp only [Command.wellFormed, Bool.and_eq_true, decide_eq_true_eq] at h
      obtain ⟨⟨⟨⟨⟨⟨⟨hns, hsl⟩, hst⟩, hco⟩, hg⟩, hc⟩, hu⟩, hch⟩ := h
      have hb : Command.writeContent (.ledConfigure ns sl st co g c u ch) =
          encLE 4 ns ++ (encLE 4 sl ++ (encLE 8 st ++ (encLE 8 co ++ (encLE 2 g ++
            (encLE 2 c ++ (encLE 2 u ++ encLE 2 ch)))))) := by
        simp [Command.writeContent, List.append_assoc]
      set body := Command.writeContent (.ledConfigure ns sl st co g c u ch) with hbdef
      have d4 : body.drop 4 = encLE 4 sl ++ (encLE 8 st ++ (encLE 8 co ++ (encLE 2 g ++
          (encLE 2 c ++ (encLE 2 u ++ encLE 2 ch))))) := by
        rw [hb]
        exact List.drop_left' (encLE_length 4 ns)
      have d8 : body.drop 8 = encLE 8 st ++ (encLE 8 co ++ (encLE 2 g ++
          (encLE 2 c ++ (encLE 2 u ++ encLE 2 ch)))) := by
        have hdd : body.drop 8 = (body.drop 4).drop 4 := by
          rw [List.drop_drop]
        rw [hdd, d4]
        exact List.drop_left' (encLE_length 4 sl)
      have d16 : body.drop 16 = encLE 8 co ++ (encLE 2 g ++
          (encLE 2 c ++ (encLE 2 u ++ encLE 2 ch))) := by
        have hdd : body.drop 16 = (body.drop 8).drop 8 := by
          rw [List.drop_drop]
        rw [hdd, d8]
        exact List.drop_left' (encLE_length 8 st)
      have d24 : body.drop 24 = encLE 2 g ++ (encLE 2 c ++ (encLE 2 u ++ encLE 2 ch)) := by
        have hdd : body.drop 24 = (body.drop 16).drop 8 := by
          rw [List.drop_drop]
        rw [hdd, d16]
        exact List.drop_left' (encLE_length 8 co)
      have d26 : body.drop 26 = encLE 2 c ++ (encLE 2 u ++ encLE 2 ch) := by
        have hdd : body.drop 26 = (body.drop 24).drop 2 := by
          rw [List.drop_drop]
        rw [hdd, d24]
        exact List.drop_left' (encLE_length 2 g)
      have d28 : body.drop 28 = encLE 2 u ++ encLE 2 ch := by
        have hdd : body.drop 28 = (body.drop 26).drop 2 := by
          rw [List.drop_drop]
        rw [hdd, d26]
        exact List.drop_left' (encLE_length 2 c)
      have d30 : body.drop 30 = encLE 2 ch := by
        have hdd : body.drop 30 = (body.drop 28).drop 2 := by
          rw [List.drop_drop]
        rw [hdd, d28]
        exact List.drop_left' (encLE_length 2 u)
      have d32 : body.drop 32 = [] := by
        have hdd : body.drop 32 = (body.drop 30).drop 2 := by
          rw [List.drop_drop]
        rw [hdd, d30]
        exact List.drop_eq_nil_of_le (by rw [encLE_length])
      have hblen : 32 ≤ body.length := by
        rw [hb]
        simp [List.length_append, encLE_length]
      simp only [Command.commandByte, readCommandAfterMagic]
      norm_num
      rw [if_pos hblen]
      rw [show body.take 4 = encLE 4 ns by
            rw [hb]; exact List.take_left' (encLE_length 4 ns),
        show (body.drop 4).take 4 = encLE 4 sl by
            rw [d4]; exact List.take_left' (encLE_length 4 sl),
        show (body.drop 8).take 8 = encLE 8 st by
            rw [d8]; exact List.take_left' (encLE_length 8 st),
        show (body.drop 16).take 8 = encLE 8 co by
            rw [d16]; exact List.take_left' (encLE_length 8 co),
        show (body.drop 24).take 2 = encLE 2 g by
            rw [d24]; exact List.take_left' (encLE_length 2 g),
        show (body.drop 26).take 2 = encLE 2 c by
            rw [d26]; exact List.take_left' (encLE_length 2 c),
        show (body.drop 28).take 2 = encLE 2 u by
            rw [d28]; exact List.take_left' (encLE_length 2 u),
        show (body.drop 30).take 2 = encLE 2 ch by
            rw [d30]; exact List.take_left' (encLE_length 2 ch),
        d32]
      rw [decLE_encLE 4 ns (by exact_mod_cast hns), decLE_encLE 4 sl (by exact_mod_cast hsl),
        decLE_encLE 8 st (by exact_mod_cast hst), decLE_encLE 8 co (by exact_mod_cast hco),
        decLE_encLE 2 g (by exact_mod_cast hg), decLE_encLE 2 c (by exact_mod_cast hc),
        decLE_encLE 2 u (by exact_mod_cast hu), decLE_encLE 2 ch (by exact_mod_cast hch)]
    | stripBrightnessSet s p =>
      simp only [Command.wellFormed, Bool.and_eq_true, decide_eq_true_eq] at h
      obtain ⟨hs, hp⟩ := h
      set body := Command.writeContent (.stripBrightnessSet s p) with hbdef
      have hb : body = encLE 1 s ++ encLE 2 p := by
        simp [hbdef, Command.writeContent]
      have ht1 : body.take 1 = encLE 1 s := by
        rw [hb]
        exact List.take_left' (encLE_length 1 s)
      have hd1 : body.drop 1 = encLE 2 p := by
        rw [hb]
        exact List.drop_left' (encLE_length 1 s)
      have ht2 : body.tail.take 2 = encLE 2 p := by
        rw [← List.drop_one, hd1]
        exact List.take_of_length_le (by rw [encLE_length])
      have hd3 : body.drop 3 = [] := by
        have hdd : body.drop 3 = (body.drop 1).drop 2 := by
          rw [List.drop_drop]
        rw [hdd, hd1]
        exact List.drop_eq_nil_of_le (by rw [encLE_length])
      have hblen : 3 ≤ body.length := by
        rw [hb]
        simp [List.length_append, encLE_length]
      simp only [Command.commandByte, readCommandAfterMagic]
      norm_num
      rw [if_pos hblen, ht1, ht2, hd3,
        decLE_encLE 1 s (by exact_mod_cast hs), decLE_encLE 2 p (by exact_mod_cast hp)]
  refine ⟨main, fun cmd2 rest h2 => ?_⟩
  rw [main] at h2
  cases h2
  rfl

/-- Witness for claim C9: the WiFi command with SSID `ab`, key `c`. -/
theorem claim_C9_command_roundtrip_witness :
    readCommand (writeCommand (.wifiConfigure [97, 98] [99] 2) true) true =
      .ok (.wifiConfigure [97, 98] [99] 2, []) :=
  (claim_C9_command_roundtrip (.wifiConfigure [97, 98] [99] 2) (by decide)).1

/-- Counterexample to claim C9 as stated: a WiFiConfigure command whose
SSID is the single NUL byte decodes to the command with an *empty* SSID
(the NUL terminates the string early), with a stray byte left over, so
`decode(encode(cmd)) ≠ cmd`. -/
theorem claim_C9_counterexample :
    readCommand (writeCommand (.wifiConfigure [0] [] 0) true) true =
      .ok (.wifiConfigure [] [] 0, [0]) ∧
    (Command.wifiConfigure [] [] 0) ≠ (.wifiConfigure [0] [] 0) := by
  constructor
  · rfl
  · decide

/-! ## Packet reader (`protocol/pixelpusher/packet.go`, `strip.go`)

`ReadPacket` parses one inbound datagram. The byte-slice reader is
represented by its remaining bytes; `Buffer.readFromList` is
`Buffer.ReadFrom` in that representation (compare `Buffer.readFrom`
over the position-based `R` above). -/

/-- `StripFlags.PixelBufferLayout()`: RGBOW iff bit 0 (`SFLAG_RGBOW`). -/
def stripFlagsLayout (sf : Nat) : BufferLayout :=
  if sf &&& 1 ≠ 0 then .rgbow else .rgb

/-- `StripState`. -/
structure StripState where
  stripNumber : Nat
  pixels : Buffer
  deriving Repr, DecidableEq

/-- `Packet`: a packet ID plus exactly one of a command or strip states. -/
structure Packet where
  id : Nat
  command : Option Command
  stripStates : List StripState
  deriving Repr, DecidableEq

/-- `PacketReader` configuration. -/
structure PacketReader where
  pixelsPerStrip : Nat
  stripFlags : List Nat
  deriving Repr, DecidableEq

/-- `Buffer.ReadFrom(r, size)` with the reader given by its remaining
bytes: `Next(size * pixelSize)`, then the `io.EOF`-with-full-length
compensation. Returns the buffer and the remaining bytes. -/
def Buffer.readFromList (layout : BufferLayout) (size : Nat) (b : List Nat) :
    Except ReadErr (Buffer × List Nat) :=
  let pixelBufSize := size * layout.pixelSize
  let v := if pixelBufSize < b.length then b.take pixelBufSize else b
  let e0 : Option ReadErr := if pixelBufSize < b.length then none else some .eof
  let err := if e0 = some .eof ∧ v.length = pixelBufSize then none else e0
  match err with
  | some e => .error e
  | none => .ok (⟨layout, v⟩, b.drop v.length)

theorem readFromList_remainder_le (layout : BufferLayout) (size : Nat) (b : List Nat)
    (pb : Buffer) (rem : List Nat)
    (h : Buffer.readFromList layout size b = .ok (pb, rem)) : rem.length ≤ b.length := by
  simp only [Buffer.readFromList] at h
  split at h
  · exact absurd h (by simp)
  · cases h
    simp

/-- `readFromList` on a stream opening with a chunk of exactly the
requested size consumes that chunk (the exact-boundary case goes
through the `io.EOF` compensation). -/
theorem readFromList_exact (layout : BufferLayout) (size : Nat) (d rest : List Nat)
    (hd : d.length = size * layout.pixelSize) :
    Buffer.readFromList layout size (d ++ rest) = .ok (⟨layout, d⟩, rest) := by
  by_cases hlt : size * layout.pixelSize < (d ++ rest).length
  · simp only [Buffer.readFromList, if_pos hlt, List.take_left' hd]
    simp [List.drop_left]
  · have hrest : rest = [] := by
      rw [List.length_append] at hlt
      have : rest.length = 0 := by omega
      exact List.eq_nil_of_length_eq_zero this
    subst hrest
    simp only [Buffer.readFromList, if_neg hlt]
    rw [if_pos (by simp [hd])]
    simp [hd]

/-- `readFromList` on a stream shorter than the requested size fails
(mid-strip EOF). -/
theorem readFromList_short (layout : BufferLayout) (size : Nat) (b : List Nat)
    (hb : b.length < size * layout.pixelSize) :
    Buffer.readFromList layout size b = .error .eof := by
  have h1 : ¬(size * layout.pixelSize < b.length) := by omega
  simp only [Buffer.readFromList, if_neg h1]
  rw [if_neg (by simp; omega)]

/-- The strip-state loop of `ReadPacket`: read a strip-number byte (EOF
between strips ends the packet cleanly), bounds-check it against the
configured flags, read the strip's pixel bytes zero-copy. -/
def readStripStates (pr : PacketReader) (b : List Nat) : Except PktErr (List StripState) :=
  match b with
  | [] => .ok []
  | stripNumber :: rest =>
    if pr.stripFlags.length ≤ stripNumber then .error .stripOutOfRange
    else
      match hrf : Buffer.readFromList (stripFlagsLayout (pr.stripFlags.getD stripNumber 0))
          pr.pixelsPerStrip rest with
      | .error _ => .error .truncated
      | .ok (pixels, rem) =>
        match readStripStates pr rem with
        | .ok states => .ok ({ stripNumber := stripNumber, pixels := pixels } :: states)
        | .error e => .error e
  termination_by b.length
  decreasing_by
    have := readFromList_remainder_le _ _ _ _ _ hrf
    simp only [List.length_cons]
    omega

/-- `Peek(n)` over remaining bytes. -/
def peekList (n : Nat) (b : List Nat) : List Nat :=
  if n < b.length then b.take n else b

/-- Big-endian u32 decode of the 4 ID bytes. -/
def decBE4 (bs : List Nat) : Nat := bs.foldl (fun acc x => acc * 256 + x) 0

/-- `PacketReader.ReadPacket`: 4-byte big-endian ID, then either the
command path (magic prefix) or the strip-state loop. -/
def PacketReader.readPacket (pr : PacketReader) (b : List Nat) : Except PktErr Packet :=
  if 4 ≤ b.length then
    let pid := decBE4 (b.take 4)
    let b1 := b.drop 4
    if peekList 16 b1 = commandMagic then
      match readCommand (b1.drop 16) false with
      | .ok (cmd, _) => .ok { id := pid, command := some cmd, stripStates := [] }
      | .error e => .error e
    else
      match readStripStates pr b1 with
      | .ok states => .ok { id := pid, command := none, stripStates := states }
      | .error e => .error e
  else .error .truncated

/-- The wire size of one strip of strip number `sn` under `pr`. -/
def stripChunkSize (pr : PacketReader) (sn : Nat) : Nat :=
  pr.pixelsPerStrip * (stripFlagsLayout (pr.stripFlags.getD sn 0)).pixelSize

/-- Serialize a list of (strip number, pixel bytes) pairs. -/
def encodeStrips : List (Nat × List Nat) → List Nat
  | [] => []
  | (sn, d) :: rest => sn :: (d ++ encodeStrips rest)

/-- Every strip number in bounds and every chunk exactly strip-sized. -/
def validStripList (pr : PacketReader) (l : List (Nat × List Nat)) : Prop :=
  ∀ p ∈ l, p.1 < pr.stripFlags.length ∧ p.2.length = stripChunkSize pr p.1

/-- The strip states the reader should produce for `l`. -/
def statesOfList (pr : PacketReader) (l : List (Nat × List Nat)) : List StripState :=
  l.map (fun p => ⟨p.1, ⟨stripFlagsLayout (pr.stripFlags.getD p.1 0), p.2⟩⟩)

theorem readStripStates_encode (pr : PacketReader) (l : List (Nat × List Nat))
    (suffix : List Nat) (hl : validStripList pr l) :
    readStripStates pr (encodeStrips l ++ suffix) =
      match readStripStates pr suffix with
      | .ok states => .ok (statesOfList pr l ++ states)
      | .error e => .error e := by
  induction l with
  | nil =>
    simp only [encodeStrips, List.nil_append, statesOfList, List.map_nil]
    cases readStripStates pr suffix <;> simp
  | cons p l ih =>
    obtain ⟨sn, d⟩ := p
    have hp := hl (sn, d) (List.mem_cons_self _ _)
    have hl2 : validStripList pr l := fun q hq => hl q (List.mem_cons_of_mem _ hq)
    have hsn : sn < pr.stripFlags.length := hp.1
    have hd : d.length = stripChunkSize pr sn := hp.2
    have hassoc : encodeStrips ((sn, d) :: l) ++ suffix =
        sn :: (d ++ (encodeStrips l ++ suffix)) := by
      simp [encodeStrips, List.append_assoc]
    rw [hassoc, readStripStates, if_neg (by omega)]
    simp only [stripChunkSize] at hd
    have hex := readFromList_exact (stripFlagsLayout (pr.stripFlags.getD sn 0))
      pr.pixelsPerStrip d (encodeStrips l ++ suffix) hd
    split
    · next e heq =>
      rw [hex] at heq
      cases heq
    · next pixels rem heq =>
      rw [hex] at heq
      cases heq
      rw [ih hl2]
      cases readStripStates pr suffix <;> simp [statesOfList]

/-- On a non-command datagram, `ReadPacket` is the ID decode followed by
the strip-state loop. -/
theorem readPacket_strips (pr : PacketReader) (idb body : List Nat)
    (hid : idb.length = 4) (hmagic : peekList 16 body ≠ commandMagic) :
    pr.readPacket (idb ++ body) =
      match readStripStates pr body with
      | .ok states => .ok { id := decBE4 idb, command := none, stripStates := states }
      | .error e => .error e := by
  have hlen : 4 ≤ (idb ++ body).length := by
    simp [List.length_append]
    omega
  have htake : (idb ++ body).take 4 = idb := List.take_left' hid
  have hdrop : (idb ++ body).drop 4 = body := List.drop_left' hid
  simp only [PacketReader.readPacket, if_pos hlen, htake, hdrop, if_neg hmagic]

/-- Claim C4 — pixel-datagram parse: after the 4-byte big-endian packet
ID, on a datagram whose body does not open with the command magic,
(1) a body that is a concatenation of complete strips (strip-number
byte in range, then exactly `pixels_per_strip × pixel_size` bytes)
parses to exactly those strip states — in particular a body ending at a
strip boundary, including the empty body right after the ID, succeeds;
(2) a strip-number byte `≥ len(strip_flags)` fails with the
strip-out-of-range error; (3) a body ending in the middle of a strip's
pixel bytes fails. -/
theorem claim_C4_pixel_datagram_parse (pr : PacketReader) (idb body : List Nat)
    (hid : idb.length = 4) (hmagic : peekList 16 body ≠ commandMagic) :
    (∀ l, validStripList pr l → body = encodeStrips l →
      pr.readPacket (idb ++ body) =
        .ok { id := decBE4 idb, command := none, stripStates := statesOfList pr l }) ∧
    (∀ l sn rest, validStripList pr l → pr.stripFlags.length ≤ sn →
      body = encodeStrips l ++ sn :: rest →
      pr.readPacket (idb ++ body) = .error .stripOutOfRange) ∧
    (∀ l sn frag, validStripList pr l → sn < pr.stripFlags.length →
      frag.length < stripChunkSize pr sn →
      body = encodeStrips l ++ sn :: frag →
      pr.readPacket (idb ++ body) = .error .truncated) := by
  refine ⟨?_, ?_, ?_⟩
  · intro l hl hbody
    rw [readPacket_strips pr idb body hid hmagic, hbody]
    have := readStripStates_encode pr l [] hl
    rw [List.append_nil] at this
    rw [this]
    simp [readStripStates]
  · intro l sn rest hl hsn hbody
    rw [readPacket_strips pr idb body hid hmagic, hbody,
      readStripStates_encode pr l _ hl, readStripStates, if_pos hsn]
  · intro l sn frag hl hsn hfrag hbody
    have hshort := readFromList_short (stripFlagsLayout (pr.stripFlags.getD sn 0))
      pr.pixelsPerStrip frag (by simpa [stripChunkSize] using hfrag)
    have hinner : readStripStates pr (sn :: frag) = .error .truncated := by
      rw [readStripStates, if_neg (by omega)]
      split
      · rfl
      · next pixels rem heq =>
        rw [hshort] at heq
        cases heq
    rw [readPacket_strips pr idb body hid hmagic, hbody,
      readStripStates_encode pr l _ hl, hinner]

/-- Witness for claim C4: the spec's pixel-datagram scenario — reader
with `pixels_per_strip = 2`, strips `(RGB, RGBOW)`, datagram
`AA BB CC DD | 01 | 18 RGBOW bytes`. -/
theorem claim_C4_pixel_datagram_parse_witness :
    PacketReader.readPacket ⟨2, [0, 1]⟩
        ([0xAA, 0xBB, 0xCC, 0xDD] ++
          [1, 1, 2, 3, 4, 4, 4, 5, 5, 5, 6, 7, 8, 9, 9, 9, 10, 10, 10]) =
      .ok ⟨0xAABBCCDD, none,
        [⟨1, ⟨.rgbow, [1, 2, 3, 4, 4, 4, 5, 5, 5, 6, 7, 8, 9, 9, 9, 10, 10, 10]⟩⟩]⟩ := by
  have h := (claim_C4_pixel_datagram_parse ⟨2, [0, 1]⟩ [0xAA, 0xBB, 0xCC, 0xDD]
    [1, 1, 2, 3, 4, 4, 4, 5, 5, 5, 6, 7, 8, 9, 9, 9, 10, 10, 10]
    (by decide) (by decide)).1
    [(1, [1, 2, 3, 4, 4, 4, 5, 5, 5, 6, 7, 8, 9, 9, 9, 10, 10, 10])]
    (by
      intro p hp
      simp only [List.mem_singleton] at hp
      subst hp
      refine ⟨by decide, by decide⟩)
    (by decide)
  simpa using h

/-! ## Packet stream assembler (`protocol/pixelpusher/packet.go`)

`PacketStream` state and the send path. The datagram sender is modelled
by its reported `MaxDatagramSize` (`mds`) and by whether `SendDatagram`
succeeds (`sendOk`); each operation returns
`(error?, new state, datagram handed to SendDatagram if one was)`. -/

/-- Send-path errors. -/
inductive SendErr where
  | packetTooLarge
  | sendFailed
  deriving Repr, DecidableEq

/-- `PacketStream` (buffers hold their byte contents; the first 4 bytes
are the reserved ID prefix). -/
structure PacketStream where
  maxStripsPerPacket : Nat
  pixelsPerStrip : Nat
  fixedSize : Nat
  nextID : Nat
  commandBuf : List Nat
  stripStateBuf : List Nat
  stripStateCount : Nat
  deriving Repr, DecidableEq

/-- `resetPacketBuffer`: truncate to the 4-byte ID prefix, or install a
fresh one. -/
def resetPacketBuffer (buf : List Nat) : List Nat :=
  if buf.length < 4 then [0, 0, 0, 0] else buf.take 4

/-- Result of `finalizeAndSendPacket`. -/
structure FinalizeResult where
  err : Option SendErr
  nextID : Nat
  buf : List Nat
  sent : Option (List Nat)
  deriving Repr, DecidableEq

/-- The fixed-size zero padding step: append zeros up to `fixedSize`
when it is set (`> 0`) and the buffer is under it. -/
def padTo (fixedSize : Nat) (b : List Nat) : List Nat :=
  if 0 < fixedSize ∧ b.length < fixedSize then
    b ++ List.replicate (fixedSize - b.length) 0
  else b

/-- `finalizeAndSendPacket`: write `NextID` (big-endian) into the
4-byte prefix, check the length against `MaxDatagramSize`, *then* pad
to `FixedSize` if set and under, send, and on success reset the buffer
and increment `NextID` (a `uint32`). -/
def finalizeAndSendPacket (mds : Nat) (sendOk : Bool) (nextID fixedSize : Nat)
    (buf : List Nat) : FinalizeResult :=
  let buf1 := uint32BE nextID ++ buf.drop 4
  if mds < buf1.length then ⟨some .packetTooLarge, nextID, buf1, none⟩
  else
    let buf2 := padTo fixedSize buf1
    if sendOk then ⟨none, (nextID + 1) % 2 ^ 32, resetPacketBuffer buf2, some buf2⟩
    else ⟨some .sendFailed, nextID, buf2, some buf2⟩

/-- `PacketStream.Flush`: noop when no strips are buffered; otherwise
finalize and send the strip-state buffer, clearing the count only on
success. -/
def PacketStream.flush (ps : PacketStream) (mds : Nat) (sendOk : Bool) :
    Option SendErr × PacketStream × Option (List Nat) :=
  if ps.stripStateCount = 0 then (none, ps, none)
  else
    let r := finalizeAndSendPacket mds sendOk ps.nextID ps.fixedSize ps.stripStateBuf
    match r.err with
    | some e => (some e, { ps with nextID := r.nextID, stripStateBuf := r.buf }, r.sent)
    | none =>
      (none,
        { ps with nextID := r.nextID, stripStateBuf := r.buf, stripStateCount := 0 },
        r.sent)

/-- `PacketStream.SendCommand`: reset the command buffer, append
`magic | cmd | body`, finalize and send. -/
def PacketStream.sendCommand (ps : PacketStream) (mds : Nat) (sendOk : Bool) (cmd : Command) :
    Option SendErr × PacketStream × Option (List Nat) :=
  let buf := resetPacketBuffer ps.commandBuf ++ writeCommand cmd true
  let r := finalizeAndSendPacket mds sendOk ps.nextID ps.fixedSize buf
  match r.err with
  | some e => (some e, { ps with nextID := r.nextID, commandBuf := r.buf }, r.sent)
  | none => (none, { ps with nextID := r.nextID, commandBuf := r.buf }, r.sent)

/-! ### Packet stream proofs -/

theorem padTo_length_le (fs mds : Nat) (b : List Nat) (hfs : fs ≤ mds)
    (hb : b.length ≤ mds) : (padTo fs b).length ≤ mds := by
  unfold padTo
  split
  · simp only [List.length_append, List.length_replicate]
    omega
  · exact hb

theorem padTo_self (fs : Nat) (b : List Nat) : padTo fs (padTo fs b) = padTo fs b := by
  by_cases hc : 0 < fs ∧ b.length < fs
  · have hlen : (padTo fs b).length = fs := by
      unfold padTo
      rw [if_pos hc]
      simp only [List.length_append, List.length_replicate]
      omega
    have hno : ¬(0 < fs ∧ (padTo fs b).length < fs) := by omega
    conv_lhs => rw [padTo]
    rw [if_neg hno]
  · unfold padTo
    rw [if_neg hc, if_neg hc]

theorem padTo_uint32BE (fs n : Nat) (t : List Nat) :
    ∃ t2, padTo fs (uint32BE n ++ t) = uint32BE n ++ t2 := by
  unfold padTo
  split
  · exact ⟨t ++ List.replicate (fs - (uint32BE n ++ t).length) 0, by rw [List.append_assoc]⟩
  · exact ⟨t, rfl⟩

theorem uint32BE_append_drop (n : Nat) (t : List Nat) : (uint32BE n ++ t).drop 4 = t :=
  List.drop_left' (uint32BE_length n)

theorem finalize_mtu_fail (mds : Nat) (sendOk : Bool) (nextID fs : Nat) (buf : List Nat)
    (h : mds < (uint32BE nextID ++ buf.drop 4).length) :
    finalizeAndSendPacket mds sendOk nextID fs buf =
      ⟨some .packetTooLarge, nextID, uint32BE nextID ++ buf.drop 4, none⟩ := by
  simp only [finalizeAndSendPacket, if_pos h]

theorem finalize_send_ok (mds nextID fs : Nat) (buf : List Nat)
    (h : ¬mds < (uint32BE nextID ++ buf.drop 4).length) :
    finalizeAndSendPacket mds true nextID fs buf =
      ⟨none, (nextID + 1) % 2 ^ 32,
        resetPacketBuffer (padTo fs (uint32BE nextID ++ buf.drop 4)),
        some (padTo fs (uint32BE nextID ++ buf.drop 4))⟩ := by
  simp only [finalizeAndSendPacket, if_neg h]
  simp

theorem finalize_send_fail (mds nextID fs : Nat) (buf : List Nat)
    (h : ¬mds < (uint32BE nextID ++ buf.drop 4).length) :
    finalizeAndSendPacket mds false nextID fs buf =
      ⟨some .sendFailed, nextID, padTo fs (uint32BE nextID ++ buf.drop 4),
        some (padTo fs (uint32BE nextID ++ buf.drop 4))⟩ := by
  simp only [finalizeAndSendPacket, if_neg h]
  simp

/-- After a flush whose `SendDatagram` failed, a retry succeeds and
hands the sender exactly the datagram of the failed attempt — provided
`FixedSize ≤ MaxDatagramSize`. -/
theorem flush_retry_sends_same (ps : PacketStream) (mds : Nat)
    (hfs : ps.fixedSize ≤ mds)
    (hfail : (ps.flush mds false).1 = some .sendFailed) :
    ((ps.flush mds false).2.1.flush mds true).1 = none ∧
    ((ps.flush mds false).2.1.flush mds true).2.2 = (ps.flush mds false).2.2 ∧
    (ps.flush mds false).2.2 ≠ none := by
  by_cases hc : ps.stripStateCount = 0
  · rw [PacketStream.flush, if_pos hc] at hfail
    simp at hfail
  · by_cases hmtu : mds < (uint32BE ps.nextID ++ ps.stripStateBuf.drop 4).length
    · rw [PacketStream.flush, if_neg hc,
        finalize_mtu_fail mds false ps.nextID ps.fixedSize ps.stripStateBuf hmtu] at hfail
      simp at hfail
    · set A := padTo ps.fixedSize (uint32BE ps.nextID ++ ps.stripStateBuf.drop 4) with hA
      have hflush1 : ps.flush mds false = (some .sendFailed, { ps with stripStateBuf := A }, some A) := by
        rw [PacketStream.flush, if_neg hc,
          finalize_send_fail mds ps.nextID ps.fixedSize ps.stripStateBuf hmtu, hA]
      obtain ⟨t2, ht2⟩ := padTo_uint32BE ps.fixedSize ps.nextID (ps.stripStateBuf.drop 4)
      have hbuf1' : uint32BE ps.nextID ++ A.drop 4 = A := by
        rw [hA, ht2, uint32BE_append_drop]
      have hlenA : A.length ≤ mds := by
        rw [hA]
        exact padTo_length_le _ _ _ hfs (by omega)
      have hmtu2 : ¬mds < (uint32BE ps.nextID ++ A.drop 4).length := by
        rw [hbuf1']
        omega
      have hpad2 : padTo ps.fixedSize (uint32BE ps.nextID ++ A.drop 4) = A := by
        rw [hbuf1', hA]
        exact padTo_self _ _
      have hflush2 : ({ ps with stripStateBuf := A } : PacketStream).flush mds true =
          (none, { ps with nextID := (ps.nextID + 1) % 2 ^ 32, stripStateBuf := resetPacketBuffer A, stripStateCount := 0 }, some A) := by
        rw [PacketStream.flush]
        rw [if_neg hc]
        rw [finalize_send_ok mds ps.nextID ps.fixedSize _ hmtu2]
        rw [hpad2]
      rw [hflush1]
      simp only [hflush2]
      simp

/-- Claim C2, amended — sequence-ID discipline: `next_id` is incremented
(mod `2^32`) exactly once per successfully sent datagram, for command
sends and flushes alike; an empty flush sends nothing and changes
nothing; a failed flush (send failure or MTU rejection) leaves both
`next_id` and the buffered strip-state count unchanged; and after a
send failure a retry sends exactly the same datagram *provided
`fixed_size ≤ MTU`* (when `fixed_size > MTU`, the padding left behind
by the failed attempt makes the retry fail the MTU validation instead
of resending — see claim C3). -/
theorem claim_C2_next_id_discipline (ps : PacketStream) (mds : Nat) (cmd : Command) :
    ((ps.sendCommand mds true cmd).1 = none →
      (ps.sendCommand mds true cmd).2.1.nextID = (ps.nextID + 1) % 2 ^ 32) ∧
    (∀ sendOk, (ps.sendCommand mds sendOk cmd).1 ≠ none →
      (ps.sendCommand mds sendOk cmd).2.1.nextID = ps.nextID) ∧
    (ps.stripStateCount ≠ 0 → (ps.flush mds true).1 = none →
      (ps.flush mds true).2.1.nextID = (ps.nextID + 1) % 2 ^ 32) ∧
    (ps.stripStateCount = 0 → ps.flush mds true = (none, ps, none)) ∧
    (∀ sendOk, (ps.flush mds sendOk).1 ≠ none →
      (ps.flush mds sendOk).2.1.nextID = ps.nextID ∧
      (ps.flush mds sendOk).2.1.stripStateCount = ps.stripStateCount) ∧
    (ps.fixedSize ≤ mds → (ps.flush mds false).1 = some .sendFailed →
      ((ps.flush mds false).2.1.flush mds true).1 = none ∧
      ((ps.flush mds false).2.1.flush mds true).2.2 = (ps.flush mds false).2.2 ∧
      (ps.flush mds false).2.2 ≠ none) := by
  refine ⟨?_, ?_, ?_, ?_, ?_, fun hfs hfail => flush_retry_sends_same ps mds hfs hfail⟩
  · intro hok
    by_cases hmtu : mds < (uint32BE ps.nextID ++
        (resetPacketBuffer ps.commandBuf ++ writeCommand cmd true).drop 4).length
    · rw [PacketStream.sendCommand, finalize_mtu_fail mds true ps.nextID ps.fixedSize _ hmtu] at hok
      simp at hok
    · rw [PacketStream.sendCommand, finalize_send_ok mds ps.nextID ps.fixedSize _ hmtu]
  · intro sendOk herr
    by_cases hmtu : mds < (uint32BE ps.nextID ++
        (resetPacketBuffer ps.commandBuf ++ writeCommand cmd true).drop 4).length
    · rw [PacketStream.sendCommand, finalize_mtu_fail mds sendOk ps.nextID ps.fixedSize _ hmtu]
    · cases sendOk with
      | true =>
        rw [PacketStream.sendCommand, finalize_send_ok mds ps.nextID ps.fixedSize _ hmtu] at herr
        simp at herr
      | false =>
        rw [PacketStream.sendCommand, finalize_send_fail mds ps.nextID ps.fixedSize _ hmtu]
  · intro hc hok
    by_cases hmtu : mds < (uint32BE ps.nextID ++ ps.stripStateBuf.drop 4).length
    · rw [PacketStream.flush, if_neg hc,
        finalize_mtu_fail mds true ps.nextID ps.fixedSize _ hmtu] at hok
      simp at hok
    · rw [PacketStream.flush, if_neg hc, finalize_send_ok mds ps.nextID ps.fixedSize _ hmtu]
  · intro hc
    rw [PacketStream.flush, if_pos hc]
  · intro sendOk herr
    by_cases hc : ps.stripStateCount = 0
    · rw [PacketStream.flush, if_pos hc] at herr
      simp at herr
    · by_cases hmtu : mds < (uint32BE ps.nextID ++ ps.stripStateBuf.drop 4).length
      · rw [PacketStream.flush, if_neg hc,
          finalize_mtu_fail mds sendOk ps.nextID ps.fixedSize _ hmtu]
        exact ⟨rfl, rfl⟩
      · cases sendOk with
        | true =>
          rw [PacketStream.flush, if_neg hc,
            finalize_send_ok mds ps.nextID ps.fixedSize _ hmtu] at herr
          simp at herr
        | false =>
          rw [PacketStream.flush, if_neg hc,
            finalize_send_fail mds ps.nextID ps.fixedSize _ hmtu]
          exact ⟨rfl, rfl⟩

/-- Witness for claim C2, at a concrete stream (`next_id = 0xFACE`, one
buffered strip) with `mds = 1024`. -/
theorem claim_C2_next_id_discipline_witness :
    ((PacketStream.sendCommand ⟨2, 16, 0, 0xFACE, [], [0, 0, 0, 0, 0, 1, 2, 3], 1⟩
        1024 true .reset).2.1.nextID = (0xFACE + 1) % 2 ^ 32) ∧
    ((PacketStream.flush ⟨2, 16, 0, 0xFACE, [], [0, 0, 0, 0, 0, 1, 2, 3], 1⟩
        1024 false).2.1.nextID = 0xFACE ∧
      (PacketStream.flush ⟨2, 16, 0, 0xFACE, [], [0, 0, 0, 0, 0, 1, 2, 3], 1⟩
        1024 false).2.1.stripStateCount = 1) ∧
    (((PacketStream.flush ⟨2, 16, 0, 0xFACE, [], [0, 0, 0, 0, 0, 1, 2, 3], 1⟩
        1024 false).2.1.flush 1024 true).1 = none) := by
  refine ⟨?_, ?_, ?_⟩
  · exact (claim_C2_next_id_discipline ⟨2, 16, 0, 0xFACE, [], [0, 0, 0, 0, 0, 1, 2, 3], 1⟩
      1024 .reset).1 (by decide)
  · exact (claim_C2_next_id_discipline ⟨2, 16, 0, 0xFACE, [], [0, 0, 0, 0, 0, 1, 2, 3], 1⟩
      1024 .reset).2.2.2.2.1 false (by decide)
  · exact ((claim_C2_next_id_discipline ⟨2, 16, 0, 0xFACE, [], [0, 0, 0, 0, 0, 1, 2, 3], 1⟩
      1024 .reset).2.2.2.2.2 (by decide) (by decide)).1

/-- Counterexample to claim C2 as stated: with `fixed_size = 10` and
`MTU = 8`, the first flush attempts a send (of the 10-byte padded
datagram) which fails; `next_id` and the strip count are preserved as
claimed, but the retry does *not* send the same strips — it sends
nothing, failing the MTU validation, because the failed attempt left
the fixed-size padding in the buffer. -/
theorem claim_C2_counterexample :
    (PacketStream.flush ⟨2, 0, 10, 0, [], [0, 0, 0, 0, 0, 1, 2, 3], 1⟩ 8 false).1 =
      some .sendFailed ∧
    ((PacketStream.flush ⟨2, 0, 10, 0, [], [0, 0, 0, 0, 0, 1, 2, 3], 1⟩ 8 false).2.1.flush
      8 true).2.2 = none ∧
    ((PacketStream.flush ⟨2, 0, 10, 0, [], [0, 0, 0, 0, 0, 1, 2, 3], 1⟩ 8 false).2.1.flush
      8 true).1 = some .packetTooLarge := by
  decide

/-- Claim C3 — evidence of the code bug: `finalizeAndSendPacket`
validates the datagram against `MaxDatagramSize` *before* padding to
`FixedSize`, so with `fixed_size = 10` and `MTU = 8` a flush of an
8-byte packet succeeds and hands the sender a 10-byte datagram,
exceeding the sender's reported maximum instead of failing with
`PacketTooLarge`. -/
theorem claim_C3_flush_exceeds_mtu :
    (PacketStream.flush ⟨2, 0, 10, 0, [], [0, 0, 0, 0, 0, 1, 2, 3], 1⟩ 8 true).1 = none ∧
    (PacketStream.flush ⟨2, 0, 10, 0, [], [0, 0, 0, 0, 0, 1, 2, 3], 1⟩ 8 true).2.2 =
      some [0, 0, 0, 0, 0, 1, 2, 3, 0, 0] ∧
    8 < ([0, 0, 0, 0, 0, 1, 2, 3, 0, 0] : List Nat).length := by
  decide

/-! ## Discovery beacon codec (`protocol/pixelpusher/discovery.go`)

`ReadDevice`/`Device.Write` for the PixelPusher block and its
software-revision-gated extensions. Two stream-exhaustion behaviors
matter: `struc.Unpack` (extensions 101 and 117) uses `io.ReadFull`
semantics —`io.EOF` only when nothing is available, `ErrUnexpectedEOF`
mid-chunk — while the strip-flags extension (109) goes through the
repository's `dataio.ReadFull`, which surfaces the underlying reader's
`io.EOF` for *both* the empty and the partial read (consuming whatever
was available). -/

/-- `io.ReadFull` over remaining bytes. -/
def readFullL (n : Nat) (b : List Nat) : Except ReadErr (List Nat × List Nat) :=
  if n ≤ b.length then .ok (b.take n, b.drop n)
  else if b.length = 0 then .error .eof
  else .error .unexpectedEof

/-- `dataio.ReadFull` over remaining bytes: `io.EOF` for empty *and*
partial reads (the partial read consumes the whole remainder). -/
def dataioReadFullL (n : Nat) (b : List Nat) : Except ReadErr (List Nat × List Nat) :=
  if n ≤ b.length then .ok (b.take n, b.drop n) else .error .eof

/-- The PixelPusher `Device` block: base header, extension fields and
trailing `Extra` bytes. Signed fields keep their raw little-endian bit
patterns. -/
structure Device where
  stripsAttached : Nat
  maxStripsPerPacket : Nat
  pixelsPerStrip : Nat
  updatePeriod : Nat
  powerTotal : Nat
  deltaSequence : Nat
  controllerOrdinal : Nat
  groupOrdinal : Nat
  artNetUniverse : Nat
  artNetChannel : Nat
  myPort : Nat
  stripFlags : List Nat
  pusherFlags : Nat
  segments : Nat
  powerDomain : Nat
  extra : List Nat
  deriving Repr, DecidableEq

/-- Decode the 28-byte base `DeviceHeader` chunk and install the
post-header defaults (`MyPort = 9798`, zeroed strip flags, zeroed
extension-117 fields, empty extra). -/
def parseDeviceHeader (c : List Nat) : Device where
  stripsAttached := decLE (c.take 1)
  maxStripsPerPacket := decLE ((c.drop 1).take 1)
  pixelsPerStrip := decLE ((c.drop 2).take 2)
  updatePeriod := decLE ((c.drop 4).take 4)
  powerTotal := decLE ((c.drop 8).take 4)
  deltaSequence := decLE ((c.drop 12).take 4)
  controllerOrdinal := decLE ((c.drop 16).take 4)
  groupOrdinal := decLE ((c.drop 20).take 4)
  artNetUniverse := decLE ((c.drop 24).take 2)
  artNetChannel := decLE ((c.drop 26).take 2)
  myPort := 9798
  stripFlags := List.replicate (decLE (c.take 1)) 0
  pusherFlags := 0
  segments := 0
  powerDomain := 0
  extra := []

/-- `ReadDevice(r, swVersion)`. -/
def readDevice (b : List Nat) (swVersion : Nat) : Except ReadErr Device :=
  match readFullL 28 b with
  | .error e => .error e
  | .ok (c, rest) =>
    let d := parseDeviceHeader c
    if swVersion < 101 then .ok { d with extra := rest }
    else
      match readFullL 4 rest with
      | .error .eof => .ok d
      | .error e => .error e
      | .ok (c1, rest1) =>
        let d1 := { d with myPort := decLE (c1.take 2) }
        if swVersion < 109 then .ok { d1 with extra := rest1 }
        else
          match dataioReadFullL (max 8 d1.stripsAttached) rest1 with
          | .error _ => .ok d1
          | .ok (cf, rest2) =>
            let d2 := { d1 with stripFlags := cf.take d1.stripsAttached }
            if swVersion < 117 then .ok { d2 with extra := rest2 }
            else
              match readFullL 14 rest2 with
              | .error .eof => .ok d2
              | .error e => .error e
              | .ok (c2, rest3) =>
                .ok { d2 with
                  pusherFlags := decLE ((c2.drop 2).take 4)
                  segments := decLE ((c2.drop 6).take 4)
                  powerDomain := decLE ((c2.drop 10).take 4)
                  extra := rest3 }

/-- Serialize the 28-byte base `DeviceHeader`. -/
def writeDeviceHeader (d : Device) : List Nat :=
  encLE 1 d.stripsAttached ++ (encLE 1 d.maxStripsPerPacket ++ (encLE 2 d.pixelsPerStrip ++
    (encLE 4 d.updatePeriod ++ (encLE 4 d.powerTotal ++ (encLE 4 d.deltaSequence ++
    (encLE 4 d.controllerOrdinal ++ (encLE 4 d.groupOrdinal ++
    (encLE 2 d.artNetUniverse ++ encLE 2 d.artNetChannel))))))))

/-- `Device.Write(w, swVersion)`: base header, then each extension the
software revision allows; the strip-flag bytes are padded with zeros up
to 8 entries when fewer strips are attached. `Extra` is never
re-emitted. -/
def writeDevice (d : Device) (swVersion : Nat) : List Nat :=
  if swVersion < 101 then writeDeviceHeader d
  else
    let e101 := encLE 2 d.myPort ++ [0, 0]
    if swVersion < 109 then writeDeviceHeader d ++ e101
    else
      let flags := d.stripFlags ++ List.replicate (8 - d.stripFlags.length) 0
      if swVersion < 117 then writeDeviceHeader d ++ (e101 ++ flags)
      else
        writeDeviceHeader d ++ (e101 ++ (flags ++
          ([0, 0] ++ (encLE 4 d.pusherFlags ++ (encLE 4 d.segments ++ encLE 4 d.powerDomain)))))

/-- A beacon byte string the round trip can hold for: bytes in range,
the stream stops at an extension boundary (or runs past the last
recognized extension), and the bytes that `Write` regenerates as zeros
(the two `struc` pad bytes after `MyPort`, the strip-flag padding up to
8 when fewer strips are attached, the two pad bytes opening extension
117) are zero in the input. -/
def wellFormedDiscovery (b : List Nat) (sw : Nat) : Bool :=
  b.all (· < 256) &&
  (let s := b.headD 0
   let n3 := 32 + max 8 s
   let pads := decide ((b.drop 30).take 2 = [0, 0])
   let flagPad :=
     decide ((b.drop (32 + s)).take (max 8 s - s) = List.replicate (max 8 s - s) 0)
   let pad117 := decide ((b.drop n3).take 2 = [0, 0])
   if sw < 101 then decide (28 ≤ b.length)
   else if sw < 109 then decide (b.length = 28) || (decide (32 ≤ b.length) && pads)
   else if sw < 117 then
     decide (b.length = 28) || (decide (b.length = 32) && pads) ||
       (decide (n3 ≤ b.length) && pads && flagPad)
   else
     decide (b.length = 28) || (decide (b.length = 32) && pads) ||
       (decide (b.length = n3) && pads && flagPad) ||
       (decide (n3 + 14 ≤ b.length) && pads && flagPad && pad117))

/-! ### Discovery codec proofs -/

theorem readFullL_ok (n : Nat) (b : List Nat) (h : n ≤ b.length) :
    readFullL n b = .ok (b.take n, b.drop n) := by
  simp [readFullL, if_pos h]

theorem readFullL_empty (n : Nat) (b : List Nat) (hb : b.length = 0) (hn : 0 < n) :
    readFullL n b = .error .eof := by
  rw [readFullL, if_neg (by omega), if_pos hb]

theorem readFullL_mid (n : Nat) (b : List Nat) (h1 : 0 < b.length) (h2 : b.length < n) :
    readFullL n b = .error .unexpectedEof := by
  rw [readFullL, if_neg (by omega), if_neg (by omega)]

theorem dataioReadFullL_ok (n : Nat) (b : List Nat) (h : n ≤ b.length) :
    dataioReadFullL n b = .ok (b.take n, b.drop n) := by
  simp [dataioReadFullL, if_pos h]

theorem dataioReadFullL_eof (n : Nat) (b : List Nat) (h : b.length < n) :
    dataioReadFullL n b = .error .eof := by
  rw [dataioReadFullL, if_neg (by omega)]

/-- Re-encoding a decoded slice of `w` bytes starting at offset `a`
reproduces the slice. -/
theorem enc_dec_slice (c : List Nat) (a w : Nat) (h : a + w ≤ c.length)
    (hall : ∀ x ∈ c, x < 256) :
    encLE w (decLE ((c.drop a).take w)) = (c.drop a).take w := by
  have hlen : ((c.drop a).take w).length = w := by
    simp only [List.length_take, List.length_drop]
    omega
  have hsub : ∀ x ∈ (c.drop a).take w, x < 256 := fun x hx =>
    hall x (List.drop_subset a c (List.take_subset w (c.drop a) hx))
  have hrt := encLE_decLE ((c.drop a).take w) hsub
  rw [hlen] at hrt
  exact hrt

/-- Two adjacent slices glue into one. -/
theorem slice_glue (c : List Nat) (a w u a2 s : Nat) (ha2 : a2 = a + w) (hs : s = w + u) :
    (c.drop a).take w ++ (c.drop a2).take u = (c.drop a).take s := by
  subst ha2 hs
  rw [List.take_add, List.drop_drop]

/-- Decode-then-encode of the 28-byte base header chunk. -/
theorem write_parse_header (c : List Nat) (hc : c.length = 28)
    (hall : ∀ x ∈ c, x < 256) :
    writeDeviceHeader (parseDeviceHeader c) = c := by
  have h0 : c.take 1 = (c.drop 0).take 1 := by rw [List.drop_zero]
  simp only [writeDeviceHeader, parseDeviceHeader, h0]
  rw [enc_dec_slice c 0 1 (by omega) hall, enc_dec_slice c 1 1 (by omega) hall,
    enc_dec_slice c 2 2 (by omega) hall, enc_dec_slice c 4 4 (by omega) hall,
    enc_dec_slice c 8 4 (by omega) hall, enc_dec_slice c 12 4 (by omega) hall,
    enc_dec_slice c 16 4 (by omega) hall, enc_dec_slice c 20 4 (by omega) hall,
    enc_dec_slice c 24 2 (by omega) hall, enc_dec_slice c 26 2 (by omega) hall]
  have g1 : (c.drop 24).take 2 ++ (c.drop 26).take 2 = (c.drop 24).take 4 :=
    slice_glue c 24 2 2 26 4 (by norm_num) (by norm_num)
  have g2 : (c.drop 20).take 4 ++ (c.drop 24).take 4 = (c.drop 20).take 8 :=
    slice_glue c 20 4 4 24 8 (by norm_num) (by norm_num)
  have g3 : (c.drop 16).take 4 ++ (c.drop 20).take 8 = (c.drop 16).take 12 :=
    slice_glue c 16 4 8 20 12 (by norm_num) (by norm_num)
  have g4 : (c.drop 12).take 4 ++ (c.drop 16).take 12 = (c.drop 12).take 16 :=
    slice_glue c 12 4 12 16 16 (by norm_num) (by norm_num)
  have g5 : (c.drop 8).take 4 ++ (c.drop 12).take 16 = (c.drop 8).take 20 :=
    slice_glue c 8 4 16 12 20 (by norm_num) (by norm_num)
  have g6 : (c.drop 4).take 4 ++ (c.drop 8).take 20 = (c.drop 4).take 24 :=
    slice_glue c 4 4 20 8 24 (by norm_num) (by norm_num)
  have g7 : (c.drop 2).take 2 ++ (c.drop 4).take 24 = (c.drop 2).take 26 :=
    slice_glue c 2 2 24 4 26 (by norm_num) (by norm_num)
  have g8 : (c.drop 1).take 1 ++ (c.drop 2).take 26 = (c.drop 1).take 27 :=
    slice_glue c 1 1 26 2 27 (by norm_num) (by norm_num)
  have g9 : (c.drop 0).take 1 ++ (c.drop 1).take 27 = (c.drop 0).take 28 :=
    slice_glue c 0 1 27 1 28 (by norm_num) (by norm_num)
  rw [g1, g2, g3, g4, g5, g6, g7, g8, g9, List.drop_zero, List.take_of_length_le (by omega)]

theorem writeDeviceHeader_length (d : Device) : (writeDeviceHeader d).length = 28 := by
  simp [writeDeviceHeader, List.length_append, encLE_length]

theorem take28_eq_base (b : List Nat) (h28 : 28 ≤ b.length) (hall : ∀ x ∈ b, x < 256) :
    writeDeviceHeader (parseDeviceHeader (b.take 28)) = b.take 28 := by
  apply write_parse_header
  · simp only [List.length_take]
    omega
  · intro x hx
    exact hall x (List.take_subset _ _ hx)

theorem parse_strips_head (b : List Nat) (h1 : 1 ≤ b.length) :
    decLE ((b.take 28).take 1) = b.headD 0 := by
  have ht : (b.take 28).take 1 = b.take 1 := by
    rw [List.take_take]
    norm_num
  cases b with
  | nil => simp at h1
  | cons x t =>
    rw [ht]
    simp [decLE]

/-- The extension-101 bytes written back equal the four input bytes at
offset 28 (using that the two `struc` pad bytes are zero). -/
theorem e101_eq (b : List Nat) (h : 32 ≤ b.length) (hall : ∀ x ∈ b, x < 256)
    (hpads : (b.drop 30).take 2 = [0, 0]) :
    encLE 2 (decLE (((b.drop 28).take 4).take 2)) ++ [0, 0] = (b.drop 28).take 4 := by
  have ht : ((b.drop 28).take 4).take 2 = (b.drop 28).take 2 := by
    rw [List.take_take]
    norm_num
  rw [ht, enc_dec_slice b 28 2 (by omega) hall, ← hpads]
  exact slice_glue b 28 2 2 30 4 (by norm_num) (by norm_num)

/-- The flag bytes written back (parsed flags plus zero padding to 8)
equal the `max 8 s` input bytes at offset 32. -/
theorem flags_eq (b : List Nat) (s : Nat)
    (h : 32 + max 8 s ≤ b.length)
    (hflagpad : (b.drop (32 + s)).take (max 8 s - s) = List.replicate (max 8 s - s) 0) :
    ((b.drop 32).take (max 8 s)).take s ++
      List.replicate (8 - (((b.drop 32).take (max 8 s)).take s).length) 0 =
      (b.drop 32).take (max 8 s) := by
  have hlen : (((b.drop 32).take (max 8 s)).take s).length = s := by
    simp only [List.length_take, List.length_drop]
    omega
  have htk : ((b.drop 32).take (max 8 s)).take s = (b.drop 32).take s := by
    rw [List.take_take]
    have : min s (max 8 s) = s := by omega
    rw [this]
  rw [hlen, htk]
  by_cases hcase : s < 8
  · have hmax : max 8 s = 8 := by omega
    rw [hmax] at hflagpad ⊢
    rw [← hflagpad]
    exact slice_glue b 32 s (8 - s) (32 + s) 8 (by omega) (by omega)
  · have hmax : max 8 s = s := by omega
    have h8 : 8 - s = 0 := by omega
    rw [hmax, h8]
    simp

/-- The extension-117 bytes written back equal the 14 input bytes at
offset `n3` (using that its two pad bytes are zero). -/
theorem e117_eq (b : List Nat) (n3 : Nat) (h : n3 + 14 ≤ b.length)
    (hall : ∀ x ∈ b, x < 256)
    (hpad117 : (b.drop n3).take 2 = [0, 0]) :
    [0, 0] ++ (encLE 4 (decLE ((((b.drop n3).take 14).drop 2).take 4)) ++
      (encLE 4 (decLE ((((b.drop n3).take 14).drop 6).take 4)) ++
        encLE 4 (decLE ((((b.drop n3).take 14).drop 10).take 4)))) =
      (b.drop n3).take 14 := by
  have hs2 : (((b.drop n3).take 14).drop 2).take 4 = (b.drop (n3 + 2)).take 4 := by
    rw [List.drop_take, List.drop_drop, List.take_take]
    norm_num
  have hs6 : (((b.drop n3).take 14).drop 6).take 4 = (b.drop (n3 + 6)).take 4 := by
    rw [List.drop_take, List.drop_drop, List.take_take]
    norm_num
  have hs10 : (((b.drop n3).take 14).drop 10).take 4 = (b.drop (n3 + 10)).take 4 := by
    rw [List.drop_take, List.drop_drop, List.take_take]
    norm_num
  rw [hs2, hs6, hs10, enc_dec_slice b (n3 + 2) 4 (by omega) hall,
    enc_dec_slice b (n3 + 6) 4 (by omega) hall, enc_dec_slice b (n3 + 10) 4 (by omega) hall,
    ← hpad117]
  have hre : (b.drop n3).take 2 ++ ((b.drop (n3 + 2)).take 4 ++
      ((b.drop (n3 + 6)).take 4 ++ (b.drop (n3 + 10)).take 4)) =
      (((b.drop n3).take 2 ++ (b.drop (n3 + 2)).take 4) ++ (b.drop (n3 + 6)).take 4) ++
        (b.drop (n3 + 10)).take 4 := by
    simp [List.append_assoc]
  rw [hre, slice_glue b n3 2 4 (n3 + 2) 6 rfl (by norm_num),
    slice_glue b n3 6 4 (n3 + 6) 10 rfl (by norm_num),
    slice_glue b n3 10 4 (n3 + 10) 14 rfl (by norm_num)]

theorem readDevice_sw100 (b : List Nat) (sw : Nat) (hsw : sw < 101) (h : 28 ≤ b.length) :
    readDevice b sw = .ok { parseDeviceHeader (b.take 28) with extra := b.drop 28 } := by
  rw [readDevice, readFullL_ok 28 b h]
  simp only [if_pos hsw]

theorem readDevice_stop28 (b : List Nat) (sw : Nat) (hsw : 101 ≤ sw) (h : b.length = 28) :
    readDevice b sw = .ok (parseDeviceHeader b) := by
  rw [readDevice, readFullL_ok 28 b (by omega)]
  have hr : b.drop 28 = [] := List.drop_eq_nil_of_le (by omega)
  have ht : b.take 28 = b := List.take_of_length_le (by omega)
  simp only [if_neg (by omega : ¬ sw < 101), hr, ht,
    readFullL_empty 4 ([] : List Nat) rfl (by norm_num)]

theorem readDevice_mid101 (b : List Nat) (sw : Nat) (hsw : 101 ≤ sw)
    (h1 : 28 < b.length) (h2 : b.length < 32) :
    readDevice b sw = .error .unexpectedEof := by
  rw [readDevice, readFullL_ok 28 b (by omega)]
  have hm : readFullL 4 (b.drop 28) = .error .unexpectedEof :=
    readFullL_mid 4 (b.drop 28) (by simp only [List.length_drop]; omega)
      (by simp only [List.length_drop]; omega)
  simp only [if_neg (by omega : ¬ sw < 101), hm]

theorem readDevice_ext101 (b : List Nat) (sw : Nat) (hsw1 : 101 ≤ sw) (hsw2 : sw < 109)
    (h : 32 ≤ b.length) :
    readDevice b sw = .ok { parseDeviceHeader (b.take 28) with
      myPort := decLE (((b.drop 28).take 4).take 2), extra := b.drop 32 } := by
  rw [readDevice, readFullL_ok 28 b (by omega)]
  have h4 : readFullL 4 (b.drop 28) = .ok ((b.drop 28).take 4, b.drop 32) := by
    rw [readFullL_ok 4 (b.drop 28) (by simp only [List.length_drop]; omega), List.drop_drop]
  simp only [if_neg (by omega : ¬ sw < 101), h4, if_pos hsw2]

theorem readDevice_ext109_short (b : List Nat) (sw : Nat) (hsw1 : 109 ≤ sw)
    (h32 : 32 ≤ b.length)
    (hshort : b.length < 32 + max 8 (decLE ((b.take 28).take 1))) :
    readDevice b sw = .ok { parseDeviceHeader (b.take 28) with
      myPort := decLE (((b.drop 28).take 4).take 2) } := by
  rw [readDevice, readFullL_ok 28 b (by omega)]
  have h4 : readFullL 4 (b.drop 28) = .ok ((b.drop 28).take 4, b.drop 32) := by
    rw [readFullL_ok 4 (b.drop 28) (by simp only [List.length_drop]; omega), List.drop_drop]
  have hio : dataioReadFullL (max 8 (decLE ((b.take 28).take 1))) (b.drop 32) =
      .error .eof :=
    dataioReadFullL_eof _ _ (by simp only [List.length_drop]; omega)
  have hsa : (parseDeviceHeader (b.take 28)).stripsAttached = decLE ((b.take 28).take 1) := rfl
  simp only [if_neg (by omega : ¬ sw < 101), h4, if_neg (by omega : ¬ sw < 109), hsa, hio]

theorem readDevice_ext109_full (b : List Nat) (sw : Nat) (hsw1 : 109 ≤ sw) (hsw2 : sw < 117)
    (h : 32 + max 8 (decLE ((b.take 28).take 1)) ≤ b.length) :
    readDevice b sw = .ok { parseDeviceHeader (b.take 28) with
      myPort := decLE (((b.drop 28).take 4).take 2),
      stripFlags := ((b.drop 32).take (max 8 (decLE ((b.take 28).take 1)))).take
        (decLE ((b.take 28).take 1)),
      extra := b.drop (32 + max 8 (decLE ((b.take 28).take 1))) } := by
  rw [readDevice, readFullL_ok 28 b (by omega)]
  have h4 : readFullL 4 (b.drop 28) = .ok ((b.drop 28).take 4, b.drop 32) := by
    rw [readFullL_ok 4 (b.drop 28) (by simp only [List.length_drop]; omega), List.drop_drop]
  have hio : dataioReadFullL (max 8 (decLE ((b.take 28).take 1))) (b.drop 32) =
      .ok ((b.drop 32).take (max 8 (decLE ((b.take 28).take 1))),
        b.drop (32 + max 8 (decLE ((b.take 28).take 1)))) := by
    rw [dataioReadFullL_ok _ _ (by simp only [List.length_drop]; omega), List.drop_drop]
  have hsa : (parseDeviceHeader (b.take 28)).stripsAttached = decLE ((b.take 28).take 1) := rfl
  simp only [if_neg (by omega : ¬ sw < 101), h4, if_neg (by omega : ¬ sw < 109), hsa, hio,
    if_pos hsw2]

theorem readDevice_stop_n3 (b : List Nat) (sw : Nat) (hsw : 117 ≤ sw)
    (h : b.length = 32 + max 8 (decLE ((b.take 28).take 1))) :
    readDevice b sw = .ok { parseDeviceHeader (b.take 28) with
      myPort := decLE (((b.drop 28).take 4).take 2),
      stripFlags := ((b.drop 32).take (max 8 (decLE ((b.take 28).take 1)))).take
        (decLE ((b.take 28).take 1)) } := by
  rw [readDevice, readFullL_ok 28 b (by omega)]
  have h4 : readFullL 4 (b.drop 28) = .ok ((b.drop 28).take 4, b.drop 32) := by
    rw [readFullL_ok 4 (b.drop 28) (by simp only [List.length_drop]; omega), List.drop_drop]
  have hio : dataioReadFullL (max 8 (decLE ((b.take 28).take 1))) (b.drop 32) =
      .ok ((b.drop 32).take (max 8 (decLE ((b.take 28).take 1))),
        b.drop (32 + max 8 (decLE ((b.take 28).take 1)))) := by
    rw [dataioReadFullL_ok _ _ (by simp only [List.length_drop]; omega), List.drop_drop]
  have hnil : b.drop (32 + max 8 (decLE ((b.take 28).take 1))) = [] :=
    List.drop_eq_nil_of_le (by omega)
  have h14 : readFullL 14 ([] : List Nat) = .error .eof :=
    readFullL_empty 14 [] rfl (by norm_num)
  have hsa : (parseDeviceHeader (b.take 28)).stripsAttached = decLE ((b.take 28).take 1) := rfl
  simp only [if_neg (by omega : ¬ sw < 101), h4, if_neg (by omega : ¬ sw < 109), hsa, hio,
    if_neg (by omega : ¬ sw < 117), hnil, h14]

theorem readDevice_mid117 (b : List Nat) (sw : Nat) (hsw : 117 ≤ sw)
    (h1 : 32 + max 8 (decLE ((b.take 28).take 1)) < b.length)
    (h2 : b.length < 32 + max 8 (decLE ((b.take 28).take 1)) + 14) :
    readDevice b sw = .error .unexpectedEof := by
  rw [readDevice, readFullL_ok 28 b (by omega)]
  have h4 : readFullL 4 (b.drop 28) = .ok ((b.drop 28).take 4, b.drop 32) := by
    rw [readFullL_ok 4 (b.drop 28) (by simp only [List.length_drop]; omega), List.drop_drop]
  have hio : dataioReadFullL (max 8 (decLE ((b.take 28).take 1))) (b.drop 32) =
      .ok ((b.drop 32).take (max 8 (decLE ((b.take 28).take 1))),
        b.drop (32 + max 8 (decLE ((b.take 28).take 1)))) := by
    rw [dataioReadFullL_ok _ _ (by simp only [List.length_drop]; omega), List.drop_drop]
  have h14 : readFullL 14 (b.drop (32 + max 8 (decLE ((b.take 28).take 1)))) =
      .error .unexpectedEof :=
    readFullL_mid 14 _ (by simp only [List.length_drop]; omega)
      (by simp only [List.length_drop]; omega)
  have hsa : (parseDeviceHeader (b.take 28)).stripsAttached = decLE ((b.take 28).take 1) := rfl
  simp only [if_neg (by omega : ¬ sw < 101), h4, if_neg (by omega : ¬ sw < 109), hsa, hio,
    if_neg (by omega : ¬ sw < 117), h14]

theorem readDevice_ext117_full (b : List Nat) (sw : Nat) (hsw : 117 ≤ sw)
    (h : 32 + max 8 (decLE ((b.take 28).take 1)) + 14 ≤ b.length) :
    readDevice b sw = .ok { parseDeviceHeader (b.take 28) with
      myPort := decLE (((b.drop 28).take 4).take 2),
      stripFlags := ((b.drop 32).take (max 8 (decLE ((b.take 28).take 1)))).take
        (decLE ((b.take 28).take 1)),
      pusherFlags :=
        decLE ((((b.drop (32 + max 8 (decLE ((b.take 28).take 1)))).take 14).drop 2).take 4),
      segments :=
        decLE ((((b.drop (32 + max 8 (decLE ((b.take 28).take 1)))).take 14).drop 6).take 4),
      powerDomain :=
        decLE ((((b.drop (32 + max 8 (decLE ((b.take 28).take 1)))).take 14).drop 10).take 4),
      extra := b.drop (32 + max 8 (decLE ((b.take 28).take 1)) + 14) } := by
  rw [readDevice, readFullL_ok 28 b (by omega)]
  have h4 : readFullL 4 (b.drop 28) = .ok ((b.drop 28).take 4, b.drop 32) := by
    rw [readFullL_ok 4 (b.drop 28) (by simp only [List.length_drop]; omega), List.drop_drop]
  have hio : dataioReadFullL (max 8 (decLE ((b.take 28).take 1))) (b.drop 32) =
      .ok ((b.drop 32).take (max 8 (decLE ((b.take 28).take 1))),
        b.drop (32 + max 8 (decLE ((b.take 28).take 1)))) := by
    rw [dataioReadFullL_ok _ _ (by simp only [List.length_drop]; omega), List.drop_drop]
  have h14 : readFullL 14 (b.drop (32 + max 8 (decLE ((b.take 28).take 1)))) =
      .ok ((b.drop (32 + max 8 (decLE ((b.take 28).take 1)))).take 14,
        b.drop (32 + max 8 (decLE ((b.take 28).take 1)) + 14)) := by
    rw [readFullL_ok 14 _ (by simp only [List.length_drop]; omega), List.drop_drop]
  have hsa : (parseDeviceHeader (b.take 28)).stripsAttached = decLE ((b.take 28).take 1) := rfl
  simp only [if_neg (by omega : ¬ sw < 101), h4, if_neg (by omega : ¬ sw < 109), hsa, hio,
    if_neg (by omega : ¬ sw < 117), h14]

/-- Round trip for revisions below 101: the written header reproduces
the 28 consumed bytes. -/
theorem roundtrip_band100 (b : List Nat) (sw : Nat) (hsw : sw < 101)
    (hall : ∀ x ∈ b, x < 256) (h28 : 28 ≤ b.length) :
    ∃ d, readDevice b sw = .ok d ∧
      (writeDevice d sw).take (b.length - d.extra.length) =
        b.take (b.length - d.extra.length) := by
  refine ⟨_, readDevice_sw100 b sw hsw h28, ?_⟩
  have he : ({ parseDeviceHeader (b.take 28) with extra := b.drop 28 } : Device).extra =
      b.drop 28 := rfl
  have hupd : writeDeviceHeader { parseDeviceHeader (b.take 28) with extra := b.drop 28 } =
      writeDeviceHeader (parseDeviceHeader (b.take 28)) := rfl
  have hk : b.length - (b.drop 28).length = 28 := by
    simp only [List.length_drop]
    omega
  rw [he, hk]
  simp only [writeDevice, if_pos hsw]
  rw [hupd, take28_eq_base b h28 hall, List.take_take]
  norm_num

/-- Round trip for revisions in [101, 109): clean stop at 28 keeps the
defaults; with the MyPort extension present the written bytes match. -/
theorem roundtrip_band101 (b : List Nat) (sw : Nat) (hsw1 : 101 ≤ sw) (hsw2 : sw < 109)
    (hall : ∀ x ∈ b, x < 256)
    (hcase : b.length = 28 ∨ (32 ≤ b.length ∧ (b.drop 30).take 2 = [0, 0])) :
    ∃ d, readDevice b sw = .ok d ∧
      (writeDevice d sw).take (b.length - d.extra.length) =
        b.take (b.length - d.extra.length) := by
  rcases hcase with hlen | ⟨hlen, hpads⟩
  · refine ⟨_, readDevice_stop28 b sw hsw1 hlen, ?_⟩
    have he : (parseDeviceHeader b).extra = ([] : List Nat) := rfl
    rw [he]
    simp only [writeDevice, if_neg (by omega : ¬ sw < 101), if_pos hsw2, List.length_nil,
      Nat.sub_zero, hlen]
    rw [List.take_left' (writeDeviceHeader_length _), write_parse_header b hlen hall,
      List.take_of_length_le (by omega)]
  · refine ⟨_, readDevice_ext101 b sw hsw1 hsw2 hlen, ?_⟩
    have he : ({ parseDeviceHeader (b.take 28) with
        myPort := decLE (((b.drop 28).take 4).take 2), extra := b.drop 32 } : Device).extra =
        b.drop 32 := rfl
    have hupd : writeDeviceHeader { parseDeviceHeader (b.take 28) with
        myPort := decLE (((b.drop 28).take 4).take 2), extra := b.drop 32 } =
        writeDeviceHeader (parseDeviceHeader (b.take 28)) := rfl
    have hk : b.length - (b.drop 32).length = 32 := by
      simp only [List.length_drop]
      omega
    rw [he, hk]
    simp only [writeDevice, if_neg (by omega : ¬ sw < 101), if_pos hsw2]
    rw [hupd, take28_eq_base b (by omega) hall, e101_eq b hlen hall hpads]
    have hg : b.take 28 ++ (b.drop 28).take 4 = b.take 32 := by
      have h0 : b.take 28 = (b.drop 0).take 28 := by rw [List.drop_zero]
      rw [h0, slice_glue b 0 28 4 28 32 (by norm_num) (by norm_num), List.drop_zero]
    rw [hg, List.take_take]
    norm_num

/-- Round trip for revisions in [109, 117): clean stops at 28 and 32
keep the later defaults; with the strip-flag extension present the
written bytes match. -/
theorem roundtrip_band109 (b : List Nat) (sw : Nat) (hsw1 : 109 ≤ sw) (hsw2 : sw < 117)
    (hall : ∀ x ∈ b, x < 256)
    (hcase : b.length = 28 ∨ (b.length = 32 ∧ (b.drop 30).take 2 = [0, 0]) ∨
      (32 + max 8 (b.headD 0) ≤ b.length ∧ (b.drop 30).take 2 = [0, 0] ∧
        (b.drop (32 + b.headD 0)).take (max 8 (b.headD 0) - b.headD 0) =
          List.replicate (max 8 (b.headD 0) - b.headD 0) 0)) :
    ∃ d, readDevice b sw = .ok d ∧
      (writeDevice d sw).take (b.length - d.extra.length) =
        b.take (b.length - d.extra.length) := by
  rcases hcase with hlen | ⟨hlen, hpads⟩ | ⟨hlen, hpads, hflagpad⟩
  · refine ⟨_, readDevice_stop28 b sw (by omega) hlen, ?_⟩
    have he : (parseDeviceHeader b).extra = ([] : List Nat) := rfl
    rw [he]
    simp only [writeDevice, if_neg (by omega : ¬ sw < 101), if_neg (by omega : ¬ sw < 109),
      if_pos hsw2, List.length_nil, Nat.sub_zero, hlen]
    rw [List.take_left' (writeDeviceHeader_length _), write_parse_header b hlen hall,
      List.take_of_length_le (by omega)]
  · have hshort : b.length < 32 + max 8 (decLE ((b.take 28).take 1)) := by omega
    refine ⟨_, readDevice_ext109_short b sw hsw1 (by omega) hshort, ?_⟩
    have he : ({ parseDeviceHeader (b.take 28) with
        myPort := decLE (((b.drop 28).take 4).take 2) } : Device).extra = ([] : List Nat) := rfl
    have hupd : writeDeviceHeader { parseDeviceHeader (b.take 28) with
        myPort := decLE (((b.drop 28).take 4).take 2) } =
        writeDeviceHeader (parseDeviceHeader (b.take 28)) := rfl
    rw [he]
    simp only [writeDevice, if_neg (by omega : ¬ sw < 101), if_neg (by omega : ¬ sw < 109),
      if_pos hsw2, List.length_nil, Nat.sub_zero]
    rw [hupd, take28_eq_base b (by omega) hall, e101_eq b (by omega) hall hpads,
      ← List.append_assoc]
    have hg : b.take 28 ++ (b.drop 28).take 4 = b.take 32 := by
      have h0 : b.take 28 = (b.drop 0).take 28 := by rw [List.drop_zero]
      rw [h0, slice_glue b 0 28 4 28 32 (by norm_num) (by norm_num), List.drop_zero]
    rw [hg, hlen, List.take_left' (by simp only [List.length_take]; omega)]
  · have hs' : decLE ((b.take 28).take 1) = b.headD 0 := parse_strips_head b (by omega)
    refine ⟨_, readDevice_ext109_full b sw hsw1 hsw2 (by omega), ?_⟩
    have he : ({ parseDeviceHeader (b.take 28) with
        myPort := decLE (((b.drop 28).take 4).take 2),
        stripFlags := ((b.drop 32).take (max 8 (decLE ((b.take 28).take 1)))).take
          (decLE ((b.take 28).take 1)),
        extra := b.drop (32 + max 8 (decLE ((b.take 28).take 1))) } : Device).extra =
        b.drop (32 + max 8 (decLE ((b.take 28).take 1))) := rfl
    have hupd : writeDeviceHeader { parseDeviceHeader (b.take 28) with
        myPort := decLE (((b.drop 28).take 4).take 2),
        stripFlags := ((b.drop 32).take (max 8 (decLE ((b.take 28).take 1)))).take
          (decLE ((b.take 28).take 1)),
        extra := b.drop (32 + max 8 (decLE ((b.take 28).take 1))) } =
        writeDeviceHeader (parseDeviceHeader (b.take 28)) := rfl
    have hk : b.length - (b.drop (32 + max 8 (decLE ((b.take 28).take 1)))).length =
        32 + max 8 (b.headD 0) := by
      simp only [List.length_drop, hs']
      omega
    rw [he, hk]
    simp only [writeDevice, if_neg (by omega : ¬ sw < 101), if_neg (by omega : ¬ sw < 109),
      if_pos hsw2]
    rw [hupd, take28_eq_base b (by omega) hall, e101_eq b (by omega) hall hpads, hs',
      flags_eq b (b.headD 0) (by omega) hflagpad]
    have hg2 : (b.drop 28).take 4 ++ (b.drop 32).take (max 8 (b.headD 0)) =
        (b.drop 28).take (4 + max 8 (b.headD 0)) :=
      slice_glue b 28 4 (max 8 (b.headD 0)) 32 (4 + max 8 (b.headD 0)) (by norm_num) rfl
    have h0 : b.take 28 = (b.drop 0).take 28 := by rw [List.drop_zero]
    rw [hg2, h0, slice_glue b 0 28 (4 + max 8 (b.headD 0)) 28 (32 + max 8 (b.headD 0))
      (by norm_num) (by omega), List.drop_zero, List.take_take, Nat.min_self]

/-- Round trip for revisions 117 and above: clean stops at 28, 32 and
the strip-flag boundary keep the later defaults; with all extensions
present the written bytes match. -/
theorem roundtrip_band117 (b : List Nat) (sw : Nat) (hsw1 : 117 ≤ sw)
    (hall : ∀ x ∈ b, x < 256)
    (hcase : b.length = 28 ∨ (b.length = 32 ∧ (b.drop 30).take 2 = [0, 0]) ∨
      (b.length = 32 + max 8 (b.headD 0) ∧ (b.drop 30).take 2 = [0, 0] ∧
        (b.drop (32 + b.headD 0)).take (max 8 (b.headD 0) - b.headD 0) =
          List.replicate (max 8 (b.headD 0) - b.headD 0) 0) ∨
      (32 + max 8 (b.headD 0) + 14 ≤ b.length ∧ (b.drop 30).take 2 = [0, 0] ∧
        (b.drop (32 + b.headD 0)).take (max 8 (b.headD 0) - b.headD 0) =
          List.replicate (max 8 (b.headD 0) - b.headD 0) 0 ∧
        (b.drop (32 + max 8 (b.headD 0))).take 2 = [0, 0])) :
    ∃ d, readDevice b sw = .ok d ∧
      (writeDevice d sw).take (b.length - d.extra.length) =
        b.take (b.length - d.extra.length) := by
  rcases hcase with hlen | ⟨hlen, hpads⟩ | ⟨hlen, hpads, hflagpad⟩ |
    ⟨hlen, hpads, hflagpad, hpad117⟩
  · refine ⟨_, readDevice_stop28 b sw (by omega) hlen, ?_⟩
    have he : (parseDeviceHeader b).extra = ([] : List Nat) := rfl
    rw [he]
    simp only [writeDevice, if_neg (by omega : ¬ sw < 101), if_neg (by omega : ¬ sw < 109),
      if_neg (by omega : ¬ sw < 117), List.length_nil, Nat.sub_zero, hlen]
    rw [List.take_left' (writeDeviceHeader_length _), write_parse_header b hlen hall,
      List.take_of_length_le (by omega)]
  · have hshort : b.length < 32 + max 8 (decLE ((b.take 28).take 1)) := by omega
    refine ⟨_, readDevice_ext109_short b sw (by omega) (by omega) hshort, ?_⟩
    have he : ({ parseDeviceHeader (b.take 28) with
        myPort := decLE (((b.drop 28).take 4).take 2) } : Device).extra = ([] : List Nat) := rfl
    have hupd : writeDeviceHeader { parseDeviceHeader (b.take 28) with
        myPort := decLE (((b.drop 28).take 4).take 2) } =
        writeDeviceHeader (parseDeviceHeader (b.take 28)) := rfl
    rw [he]
    simp only [writeDevice, if_neg (by omega : ¬ sw < 101), if_neg (by omega : ¬ sw < 109),
      if_neg (by omega : ¬ sw < 117), List.length_nil, Nat.sub_zero]
    rw [hupd, take28_eq_base b (by omega) hall, e101_eq b (by omega) hall hpads,
      ← List.append_assoc]
    have hg : b.take 28 ++ (b.drop 28).take 4 = b.take 32 := by
      have h0 : b.take 28 = (b.drop 0).take 28 := by rw [List.drop_zero]
      rw [h0, slice_glue b 0 28 4 28 32 (by norm_num) (by norm_num), List.drop_zero]
    rw [hg, hlen, List.take_left' (by simp only [List.length_take]; omega)]
  · have hs' : decLE ((b.take 28).take 1) = b.headD 0 := parse_strips_head b (by omega)
    refine ⟨_, readDevice_stop_n3 b sw hsw1 (by omega), ?_⟩
    have he : ({ parseDeviceHeader (b.take 28) with
        myPort := decLE (((b.drop 28).take 4).take 2),
        stripFlags := ((b.drop 32).take (max 8 (decLE ((b.take 28).take 1)))).take
          (decLE ((b.take 28).take 1)) } : Device).extra = ([] : List Nat) := rfl
    have hupd : writeDeviceHeader { parseDeviceHeader (b.take 28) with
        myPort := decLE (((b.drop 28).take 4).take 2),
        stripFlags := ((b.drop 32).take (max 8 (decLE ((b.take 28).take 1)))).take
          (decLE ((b.take 28).take 1)) } =
        writeDeviceHeader (parseDeviceHeader (b.take 28)) := rfl
    rw [he]
    simp only [writeDevice, if_neg (by omega : ¬ sw < 101), if_neg (by omega : ¬ sw < 109),
      if_neg (by omega : ¬ sw < 117), List.length_nil, Nat.sub_zero]
    rw [hupd, take28_eq_base b (by omega) hall, e101_eq b (by omega) hall hpads, hs',
      flags_eq b (b.headD 0) (by omega) hflagpad, ← List.append_assoc, ← List.append_assoc]
    have hg2 : (b.drop 28).take 4 ++ (b.drop 32).take (max 8 (b.headD 0)) =
        (b.drop 28).take (4 + max 8 (b.headD 0)) :=
      slice_glue b 28 4 (max 8 (b.headD 0)) 32 (4 + max 8 (b.headD 0)) (by norm_num) rfl
    have h0 : b.take 28 = (b.drop 0).take 28 := by rw [List.drop_zero]
    rw [List.append_assoc (b.take 28), hg2, h0,
      slice_glue b 0 28 (4 + max 8 (b.headD 0)) 28 (32 + max 8 (b.headD 0))
        (by norm_num) (by omega), List.drop_zero, hlen,
      List.take_left' (by simp only [List.length_take]; omega)]
  · have hs' : decLE ((b.take 28).take 1) = b.headD 0 := parse_strips_head b (by omega)
    refine ⟨_, readDevice_ext117_full b sw hsw1 (by omega), ?_⟩
    have he : ({ parseDeviceHeader (b.take 28) with
        myPort := decLE (((b.drop 28).take 4).take 2),
        stripFlags := ((b.drop 32).take (max 8 (decLE ((b.take 28).take 1)))).take
          (decLE ((b.take 28).take 1)),
        pusherFlags :=
          decLE ((((b.drop (32 + max 8 (decLE ((b.take 28).take 1)))).take 14).drop 2).take 4),
        segments :=
          decLE ((((b.drop (32 + max 8 (decLE ((b.take 28).take 1)))).take 14).drop 6).take 4),
        powerDomain :=
          decLE ((((b.drop (32 + max 8 (decLE ((b.take 28).take 1)))).take 14).drop 10).take 4),
        extra := b.drop (32 + max 8 (decLE ((b.take 28).take 1)) + 14) } : Device).extra =
        b.drop (32 + max 8 (decLE ((b.take 28).take 1)) + 14) := rfl
    have hupd : writeDeviceHeader { parseDeviceHeader (b.take 28) with
        myPort := decLE (((b.drop 28).take 4).take 2),
        stripFlags := ((b.drop 32).take (max 8 (decLE ((b.take 28).take 1)))).take
          (decLE ((b.take 28).take 1)),
        pusherFlags :=
          decLE ((((b.drop (32 + max 8 (decLE ((b.take 28).take 1)))).take 14).drop 2).take 4),
        segments :=
          decLE ((((b.drop (32 + max 8 (decLE ((b.take 28).take 1)))).take 14).drop 6).take 4),
        powerDomain :=
          decLE ((((b.drop (32 + max 8 (decLE ((b.take 28).take 1)))).take 14).drop 10).take 4),
        extra := b.drop (32 + max 8 (decLE ((b.take 28).take 1)) + 14) } =
        writeDeviceHeader (parseDeviceHeader (b.take 28)) := rfl
    have hk : b.length - (b.drop (32 + max 8 (decLE ((b.take 28).take 1)) + 14)).length =
        32 + max 8 (b.headD 0) + 14 := by
      simp only [List.length_drop, hs']
      omega
    rw [he, hk]
    simp only [writeDevice, if_neg (by omega : ¬ sw < 101), if_neg (by omega : ¬ sw < 109),
      if_neg (by omega : ¬ sw < 117)]
    rw [hupd, take28_eq_base b (by omega) hall, e101_eq b (by omega) hall hpads, hs',
      flags_eq b (b.headD 0) (by omega) hflagpad,
      e117_eq b (32 + max 8 (b.headD 0)) (by omega) hall hpad117]
    have hga : (b.drop 32).take (max 8 (b.headD 0)) ++
        (b.drop (32 + max 8 (b.headD 0))).take 14 =
        (b.drop 32).take (max 8 (b.headD 0) + 14) :=
      slice_glue b 32 (max 8 (b.headD 0)) 14 (32 + max 8 (b.headD 0))
        (max 8 (b.headD 0) + 14) rfl rfl
    have hgb : (b.drop 28).take 4 ++ (b.drop 32).take (max 8 (b.headD 0) + 14) =
        (b.drop 28).take (4 + (max 8 (b.headD 0) + 14)) :=
      slice_glue b 28 4 (max 8 (b.headD 0) + 14) 32 (4 + (max 8 (b.headD 0) + 14))
        (by norm_num) rfl
    have h0 : b.take 28 = (b.drop 0).take 28 := by rw [List.drop_zero]
    rw [hga, hgb, h0, slice_glue b 0 28 (4 + (max 8 (b.headD 0) + 14)) 28
      (32 + max 8 (b.headD 0) + 14) (by norm_num) (by omega), List.drop_zero,
      List.take_take, Nat.min_self]

/-- C1: for every software revision in {100, 101, 109, 117, 122} and every
well-formed beacon byte string, writing the parsed device reproduces the
input bytes up to the last recognized extension; a stream that ends cleanly
before the first optional extension parses successfully with defaults
`MyPort = 9798`, strip flags all zero of length `StripsAttached`,
`PusherFlags = 0`; a stream ending in the middle of extension 101 or
extension 117 fails with an error. (A stream ending in the middle of the
extension-109 strip-flag block does *not* fail — see the counterexample —
so the claim's blanket mid-extension-failure sentence is corrected.) -/
theorem claim_C1_discovery_roundtrip :
    (∀ b sw, (sw = 100 ∨ sw = 101 ∨ sw = 109 ∨ sw = 117 ∨ sw = 122) →
      wellFormedDiscovery b sw = true →
      ∃ d, readDevice b sw = .ok d ∧
        (writeDevice d sw).take (b.length - d.extra.length) =
          b.take (b.length - d.extra.length)) ∧
    (∀ b sw, 101 ≤ sw → b.length = 28 →
      ∃ d, readDevice b sw = .ok d ∧ d.myPort = 9798 ∧
        d.stripFlags = List.replicate d.stripsAttached 0 ∧ d.pusherFlags = 0) ∧
    (∀ b sw, 101 ≤ sw → 28 < b.length → b.length < 32 →
      readDevice b sw = .error .unexpectedEof) ∧
    (∀ b sw, 117 ≤ sw → 32 + max 8 (b.headD 0) < b.length →
      b.length < 32 + max 8 (b.headD 0) + 14 →
      readDevice b sw = .error .unexpectedEof) := by
  refine ⟨?_, ?_, ?_, ?_⟩
  · intro b sw hmem hwf
    rw [wellFormedDiscovery, Bool.and_eq_true] at hwf
    obtain ⟨hall', hrest⟩ := hwf
    have hall : ∀ x ∈ b, x < 256 := by simpa using hall'
    rcases hmem with hsw | hsw | hsw | hsw | hsw <;> subst hsw
    · simp only [if_pos (show (100 : Nat) < 101 by norm_num), decide_eq_true_eq] at hrest
      exact roundtrip_band100 b 100 (by norm_num) hall hrest
    · simp only [if_neg (show ¬ (101 : Nat) < 101 by norm_num),
        if_pos (show (101 : Nat) < 109 by norm_num), Bool.or_eq_true, Bool.and_eq_true,
        decide_eq_true_eq] at hrest
      exact roundtrip_band101 b 101 (by norm_num) (by norm_num) hall hrest
    · simp only [if_neg (show ¬ (109 : Nat) < 101 by norm_num),
        if_neg (show ¬ (109 : Nat) < 109 by norm_num),
        if_pos (show (109 : Nat) < 117 by norm_num), Bool.or_eq_true, Bool.and_eq_true,
        decide_eq_true_eq] at hrest
      rcases hrest with (h | ⟨h1, h2⟩) | ⟨⟨h1, h2⟩, h3⟩
      · exact roundtrip_band109 b 109 (by norm_num) (by norm_num) hall (Or.inl h)
      · exact roundtrip_band109 b 109 (by norm_num) (by norm_num) hall (Or.inr (Or.inl ⟨h1, h2⟩))
      · exact roundtrip_band109 b 109 (by norm_num) (by norm_num) hall
          (Or.inr (Or.inr ⟨h1, h2, h3⟩))
    · simp only [if_neg (show ¬ (117 : Nat) < 101 by norm_num),
        if_neg (show ¬ (117 : Nat) < 109 by norm_num),
        if_neg (show ¬ (117 : Nat) < 117 by norm_num), Bool.or_eq_true, Bool.and_eq_true,
        decide_eq_true_eq] at hrest
      rcases hrest with ((h | ⟨h1, h2⟩) | ⟨⟨h1, h2⟩, h3⟩) | ⟨⟨⟨h1, h2⟩, h3⟩, h4⟩
      · exact roundtrip_band117 b 117 (by norm_num) hall (Or.inl h)
      · exact roundtrip_band117 b 117 (by norm_num) hall (Or.inr (Or.inl ⟨h1, h2⟩))
      · exact roundtrip_band117 b 117 (by norm_num) hall (Or.inr (Or.inr (Or.inl ⟨h1, h2, h3⟩)))
      · exact roundtrip_band117 b 117 (by norm_num) hall
          (Or.inr (Or.inr (Or.inr ⟨h1, h2, h3, h4⟩)))
    · simp only [if_neg (show ¬ (122 : Nat) < 101 by norm_num),
        if_neg (show ¬ (122 : Nat) < 109 by norm_num),
        if_neg (show ¬ (122 : Nat) < 117 by norm_num), Bool.or_eq_true, Bool.and_eq_true,
        decide_eq_true_eq] at hrest
      rcases hrest with ((h | ⟨h1, h2⟩) | ⟨⟨h1, h2⟩, h3⟩) | ⟨⟨⟨h1, h2⟩, h3⟩, h4⟩
      · exact roundtrip_band117 b 122 (by norm_num) hall (Or.inl h)
      · exact roundtrip_band117 b 122 (by norm_num) hall (Or.inr (Or.inl ⟨h1, h2⟩))
      · exact roundtrip_band117 b 122 (by norm_num) hall (Or.inr (Or.inr (Or.inl ⟨h1, h2, h3⟩)))
      · exact roundtrip_band117 b 122 (by norm_num) hall
          (Or.inr (Or.inr (Or.inr ⟨h1, h2, h3, h4⟩)))
  · intro b sw h1 h2
    exact ⟨parseDeviceHeader b, readDevice_stop28 b sw h1 h2, rfl, rfl, rfl⟩
  · intro b sw h1 h2 h3
    exact readDevice_mid101 b sw h1 h2 h3
  · intro b sw h1 h2 h3
    have hs' : decLE ((b.take 28).take 1) = b.headD 0 := parse_strips_head b (by omega)
    exact readDevice_mid117 b sw h1 (by rw [hs']; exact h2) (by rw [hs']; exact h3)

theorem claim_C1_discovery_roundtrip_witness :
    (∃ d, readDevice ((2 :: List.replicate 27 0) ++ ([38, 38, 0, 0] ++ List.replicate 8 0))
        109 = .ok d ∧
      (writeDevice d 109).take
          (((2 :: List.replicate 27 0) ++ ([38, 38, 0, 0] ++ List.replicate 8 0)).length -
            d.extra.length) =
        ((2 :: List.replicate 27 0) ++ ([38, 38, 0, 0] ++ List.replicate 8 0)).take
          (((2 :: List.replicate 27 0) ++ ([38, 38, 0, 0] ++ List.replicate 8 0)).length -
            d.extra.length)) ∧
    (∃ d, readDevice (2 :: List.replicate 27 0) 117 = .ok d ∧ d.myPort = 9798 ∧
      d.stripFlags = List.replicate d.stripsAttached 0 ∧ d.pusherFlags = 0) ∧
    readDevice ((2 :: List.replicate 27 0) ++ [1]) 101 = .error .unexpectedEof ∧
    readDevice ((2 :: List.replicate 27 0) ++ ([38, 38, 0, 0] ++
      (List.replicate 8 0 ++ [5]))) 117 = .error .unexpectedEof :=
  ⟨claim_C1_discovery_roundtrip.1 _ 109 (by norm_num) (by decide),
   claim_C1_discovery_roundtrip.2.1 _ 117 (by norm_num) (by decide),
   claim_C1_discovery_roundtrip.2.2.1 _ 101 (by norm_num) (by decide) (by decide),
   claim_C1_discovery_roundtrip.2.2.2 _ 117 (by norm_num) (by decide) (by decide)⟩

/-- C1 counterexample to "a stream that ends in the middle of an
extension fails with an error": this 33-byte stream ends one byte into
the extension-109 strip-flag block (which runs from offset 32 to 40 for
2 attached strips), yet `ReadDevice` succeeds, because `dataio.ReadFull`
reports the partial read as plain `io.EOF` and `ReadDevice` treats that
as a clean stop. -/
theorem claim_C1_counterexample :
    32 < (((2 :: List.replicate 27 0) ++ [0, 0, 0, 0, 7]) : List Nat).length ∧
    (((2 :: List.replicate 27 0) ++ [0, 0, 0, 0, 7]) : List Nat).length <
      32 + max 8 ((((2 :: List.replicate 27 0) ++ [0, 0, 0, 0, 7]) : List Nat).headD 0) ∧
    (readDevice ((2 :: List.replicate 27 0) ++ [0, 0, 0, 0, 7]) 109).isOk = true := by
  decide

/-! ### Device registry and router (`device/ordinal.go`, `device/local.go`,
`device/router.go`) -/

/-- `device.Ordinal`: logical group and controller, Go `int`s. -/
structure Ordinal where
  group : Int
  controller : Int
deriving Repr, DecidableEq

/-- `Ordinal.IsValid`: both components non-negative. -/
def Ordinal.isValid (o : Ordinal) : Bool :=
  decide (0 ≤ o.group) && decide (0 ≤ o.controller)

/-- One `Registry` entry: the device's ID, the ordinal it is registered
under (`registeredOrdinal`), and whether its done-channel has closed. -/
structure registryEntry where
  deviceID : String
  ordinal : Ordinal
  done : Bool
deriving Repr, DecidableEq

/-- The device `Registry`: its entries, each registered in `devices`
under its ID and in `ordinalMap` under its ordinal. -/
structure Registry where
  entries : List registryEntry
deriving Repr, DecidableEq

/-- `Registry.Get`: the entry registered for `id`, omitted if done. -/
def Registry.get (reg : Registry) (id : String) : Option registryEntry :=
  match reg.entries.find? (fun e => e.deviceID == id) with
  | none => none
  | some e => if e.done then none else some e

/-- `Registry.GetUniqueOrdinal`: when exactly one entry is registered
for `o` (done entries count!), return it unless it is done. -/
def Registry.getUniqueOrdinal (reg : Registry) (o : Ordinal) : Option registryEntry :=
  match reg.entries.filter (fun e => e.ordinal == o) with
  | [e] => if e.done then none else some e
  | _ => none

/-- `Registry.unregisterEntryLocked`: remove the entry for `id` from the
registry and its maps. -/
def Registry.unregisterEntry (reg : Registry) (id : String) : Registry :=
  ⟨reg.entries.filter (fun e => !(e.deviceID == id))⟩

/-- The outcome of `Router.Route`: a target device, or `ErrNoRoute`. -/
inductive RouteResult where
  | routed (e : registryEntry)
  | noRoute
deriving Repr, DecidableEq

/-- `Router.Route(ordinal, id, pkt)` target selection. -/
def route (reg : Registry) (ordinal : Ordinal) (id : String) : RouteResult :=
  let d := if ordinal.isValid then reg.getUniqueOrdinal ordinal else none
  let d := match d with
    | none => reg.get id
    | some e => some e
  match d with
  | none => .noRoute
  | some e => .routed e

/-- C8: router target selection. If the ordinal is valid and exactly one
entry — done entries *included* — is registered with it, and that entry
is not done, it is chosen; when the unique-ordinal lookup yields nothing
(invalid ordinal, zero or several registrants, or a lone done
registrant), a non-done device registered under `id` is chosen; with no
such device either, the call returns `NoRoute`. When two devices share
an ordinal, `GetUniqueOrdinal` returns none for it; after one of the
two is removed, it returns the (non-done) survivor. (The claim's
"exactly one *non-done* device is registered with that ordinal" is
corrected: a second, done-but-unpurged registrant defeats the ordinal
route — see the counterexample.) -/
theorem claim_C8_route_selection :
    (∀ (reg : Registry) (o : Ordinal) (id : String) (e : registryEntry), o.isValid = true →
      reg.entries.filter (fun x => x.ordinal == o) = [e] → e.done = false →
      route reg o id = .routed e) ∧
    (∀ (reg : Registry) (o : Ordinal) (id : String) (e : registryEntry),
      (o.isValid = false ∨ reg.getUniqueOrdinal o = none) →
      reg.get id = some e → route reg o id = .routed e) ∧
    (∀ (reg : Registry) (o : Ordinal) (id : String),
      (o.isValid = false ∨ reg.getUniqueOrdinal o = none) →
      reg.get id = none → route reg o id = .noRoute) ∧
    (∀ (reg : Registry) (o : Ordinal) (e1 e2 : registryEntry) (rest : List registryEntry),
      reg.entries.filter (fun x => x.ordinal == o) = e1 :: e2 :: rest →
      reg.getUniqueOrdinal o = none) ∧
    (∀ (reg : Registry) (o : Ordinal) (e1 e2 : registryEntry),
      reg.entries.filter (fun x => x.ordinal == o) = [e1, e2] →
      e2.deviceID ≠ e1.deviceID → e2.done = false →
      (reg.unregisterEntry e1.deviceID).getUniqueOrdinal o = some e2) := by
  refine ⟨?_, ?_, ?_, ?_, ?_⟩
  · intro reg o id e hv hf hd
    have hgu : reg.getUniqueOrdinal o = some e := by
      simp only [Registry.getUniqueOrdinal, hf, hd]
      simp
    simp only [route, hv, if_true, hgu]
  · intro reg o id e hnone hget
    rcases hnone with hv | hgu
    · simp only [route, hv, Bool.false_eq_true, if_false, hget]
    · simp only [route, hgu, hget]
      cases o.isValid <;> simp
  · intro reg o id hnone hget
    rcases hnone with hv | hgu
    · simp only [route, hv, Bool.false_eq_true, if_false, hget]
    · simp only [route, hgu, hget]
      cases o.isValid <;> simp
  · intro reg o e1 e2 rest hf
    simp only [Registry.getUniqueOrdinal, hf]
  · intro reg o e1 e2 hf hne hd2
    have hfilt : ((reg.entries.filter (fun x => !(x.deviceID == e1.deviceID))).filter
        (fun x => x.ordinal == o)) = [e2] := by
      have hswap : ((reg.entries.filter (fun x => !(x.deviceID == e1.deviceID))).filter
          (fun x => x.ordinal == o)) =
          ((reg.entries.filter (fun x => x.ordinal == o)).filter
            (fun x => !(x.deviceID == e1.deviceID))) := by
        rw [List.filter_filter, List.filter_filter]
        exact List.filter_congr (fun x _ => Bool.and_comm _ _)
      have hb1 : (e1.deviceID == e1.deviceID) = true := beq_self_eq_true _
      have hb2 : (e2.deviceID == e1.deviceID) = false := beq_eq_false_iff_ne.mpr hne
      rw [hswap, hf]
      simp [hb1, hb2]
    simp only [Registry.getUniqueOrdinal, Registry.unregisterEntry]
    rw [hfilt]
    simp [hd2]

theorem claim_C8_route_selection_witness :
    route ⟨[⟨"a", ⟨0, 0⟩, false⟩]⟩ ⟨0, 0⟩ "x" = .routed ⟨"a", ⟨0, 0⟩, false⟩ ∧
    route ⟨[⟨"b", ⟨1, 1⟩, false⟩]⟩ ⟨-1, -1⟩ "b" = .routed ⟨"b", ⟨1, 1⟩, false⟩ ∧
    route ⟨[⟨"b", ⟨1, 1⟩, false⟩]⟩ ⟨-1, -1⟩ "z" = .noRoute ∧
    Registry.getUniqueOrdinal ⟨[⟨"a", ⟨0, 0⟩, false⟩, ⟨"b", ⟨0, 0⟩, false⟩]⟩ ⟨0, 0⟩ = none ∧
    (Registry.unregisterEntry ⟨[⟨"a", ⟨0, 0⟩, false⟩, ⟨"b", ⟨0, 0⟩, false⟩]⟩
      "a").getUniqueOrdinal ⟨0, 0⟩ = some ⟨"b", ⟨0, 0⟩, false⟩ :=
  ⟨claim_C8_route_selection.1 _ _ "x" _ (by decide) (by decide) rfl,
   claim_C8_route_selection.2.1 _ _ "b" _ (Or.inl (by decide)) (by decide),
   claim_C8_route_selection.2.2.1 _ _ "z" (Or.inl (by decide)) (by decide),
   claim_C8_route_selection.2.2.2.1 _ _ ⟨"a", ⟨0, 0⟩, false⟩ ⟨"b", ⟨0, 0⟩, false⟩ []
     (by decide),
   claim_C8_route_selection.2.2.2.2 _ _ ⟨"a", ⟨0, 0⟩, false⟩ ⟨"b", ⟨0, 0⟩, false⟩
     (by decide) (by decide) rfl⟩

/-- C8 counterexample to "exactly one *non-done* device registered with
the ordinal is chosen": device "a" is the only non-done device
registered with ordinal (0,0), but the done, not-yet-unregistered
device "b" shares the ordinal, so `GetUniqueOrdinal` sees two
registrants, returns nil, and — with the fallback ID unregistered —
`Route` returns `ErrNoRoute` instead of choosing "a". -/
theorem claim_C8_counterexample :
    (Ordinal.mk 0 0).isValid = true ∧
    (Registry.entries ⟨[⟨"a", ⟨0, 0⟩, false⟩, ⟨"b", ⟨0, 0⟩, true⟩]⟩).filter
        (fun e => !e.done && (e.ordinal == ⟨0, 0⟩)) = [⟨"a", ⟨0, 0⟩, false⟩] ∧
    route ⟨[⟨"a", ⟨0, 0⟩, false⟩, ⟨"b", ⟨0, 0⟩, true⟩]⟩ ⟨0, 0⟩ "c" = .noRoute := by
  decide

end GoPushPixels
